import Mathlib

/-!
Verification of the Counterparty transaction parser (TxParser).

Byte buffers are modelled as `List Nat` (each entry a byte value; functions
that write bytes reduce modulo 256 exactly where the JS `Buffer` does).
Fallible TypeScript functions (those that `throw`) are modelled as
`Option`/`Except String` valued functions; `try ... catch` wrappers become
`match` on the result.  Loops with a cursor into a fixed buffer are modelled
as structural recursion on the not-yet-consumed suffix, with an explicit
fuel argument (always instantiated with a provably sufficient value) so that
every definition stays executable by kernel reduction.
-/

set_option maxRecDepth 32768

/-! ### Generic byte/string helpers -/

/-- One lowercase hex digit, as produced by `Buffer.toString('hex')`. -/
def hexDigit (n : Nat) : Char := if n < 10 then Char.ofNat (48 + n) else Char.ofNat (87 + n)

/-- `Buffer.toString('hex')`: two lowercase hex digits per byte. -/
def hexOfBytes (bs : List Nat) : String :=
  String.mk (bs.foldr (fun b acc => hexDigit (b % 256 / 16) :: hexDigit (b % 16) :: acc) [])

/-- UTF-8 encoding of one character (RFC 3629). -/
def charUtf8 (c : Char) : List Nat :=
  let n := c.toNat
  if n < 0x80 then [n]
  else if n < 0x800 then [0xC0 + n / 64, 0x80 + n % 64]
  else if n < 0x10000 then [0xE0 + n / 4096, 0x80 + n / 64 % 64, 0x80 + n % 64]
  else [0xF0 + n / 262144, 0x80 + n / 4096 % 64, 0x80 + n / 64 % 64, 0x80 + n % 64]

/-- UTF-8 encoding of a string (`Buffer.from(s, 'utf8')`). -/
def utf8Bytes (s : String) : List Nat := s.data.flatMap charUtf8

/-- Strict UTF-8 decoder (rejects truncated, overlong, surrogate and
out-of-range sequences).  Fuel-structural; fuel `bs.length` suffices. -/
def utf8DecodeAux : Nat → List Nat → Option (List Char)
  | 0, [] => some []
  | 0, _ :: _ => none
  | _ + 1, [] => some []
  | fuel + 1, b :: rest =>
    if b < 0x80 then
      (utf8DecodeAux fuel rest).map (Char.ofNat b :: ·)
    else if b < 0xC2 then none
    else if b < 0xE0 then
      match rest with
      | c1 :: r =>
        if 0x80 ≤ c1 ∧ c1 < 0xC0 then
          (utf8DecodeAux fuel r).map (Char.ofNat ((b - 0xC0) * 64 + (c1 - 0x80)) :: ·)
        else none
      | _ => none
    else if b < 0xF0 then
      match rest with
      | c1 :: c2 :: r =>
        let cp := (b - 0xE0) * 4096 + (c1 - 0x80) * 64 + (c2 - 0x80)
        if 0x80 ≤ c1 ∧ c1 < 0xC0 ∧ 0x80 ≤ c2 ∧ c2 < 0xC0 ∧ 0x800 ≤ cp ∧
            ¬ (0xD800 ≤ cp ∧ cp ≤ 0xDFFF) then
          (utf8DecodeAux fuel r).map (Char.ofNat cp :: ·)
        else none
      | _ => none
    else if b < 0xF5 then
      match rest with
      | c1 :: c2 :: c3 :: r =>
        let cp := (b - 0xF0) * 262144 + (c1 - 0x80) * 4096 + (c2 - 0x80) * 64 + (c3 - 0x80)
        if 0x80 ≤ c1 ∧ c1 < 0xC0 ∧ 0x80 ≤ c2 ∧ c2 < 0xC0 ∧ 0x80 ≤ c3 ∧ c3 < 0xC0 ∧
            0x10000 ≤ cp ∧ cp ≤ 0x10FFFF then
          (utf8DecodeAux fuel r).map (Char.ofNat cp :: ·)
        else none
      | _ => none
    else none

/-- Decode bytes as UTF-8 if they form a valid encoding. -/
def utf8Decode (bs : List Nat) : Option String :=
  (utf8DecodeAux bs.length bs).map String.mk

/-- Byte-per-char rendering, used as the abstraction of Node's lossy
`Buffer.toString('utf8')` when the bytes are not valid UTF-8 (Node emits
U+FFFD replacement characters there; no decoded payload field inspected by
a claim depends on that case). -/
def asciiOfBytes (bs : List Nat) : String := String.mk (bs.map (fun b => Char.ofNat (b % 256)))

/-- `Buffer.toString('utf8')`. -/
def bufToUtf8 (bs : List Nat) : String := (utf8Decode bs).getD (asciiOfBytes bs)

/-- Big-endian value of a byte list. -/
def readBE (bs : List Nat) : Nat := bs.foldl (fun a b => a * 256 + b % 256) 0

/-- `Buffer.readBigUInt64BE(off)` (callers guard the length). -/
def readU64 (payload : List Nat) (off : Nat) : Nat := readBE ((payload.drop off).take 8)

/-- `Buffer.readBigInt64BE(off)`: two's-complement reading of 8 bytes. -/
def readI64 (payload : List Nat) (off : Nat) : Int :=
  let v := readU64 payload off
  if v < 2 ^ 63 then (v : Int) else (v : Int) - 2 ^ 64

/-- `Buffer.readUInt16BE(off)`. -/
def readU16 (payload : List Nat) (off : Nat) : Nat := readBE ((payload.drop off).take 2)

/-- Decimal-integer parse, the fragment of the JS `BigInt(string)`
conversion the decoders can hit ( `BigInt('')` and whitespace-only strings
give `0n`; signs and digits; anything else throws). -/
def decDigitsVal? (s : List Char) : Option Nat :=
  if s ≠ [] ∧ s.all (·.isDigit) then
    some (s.foldl (fun a c => a * 10 + (c.toNat - 48)) 0)
  else none

def parseBigInt? (s : String) : Option Int :=
  let t := s.trim
  if t = "" then some 0
  else if t.startsWith "-" then (decDigitsVal? t.data.tail).map (fun n => -(n : Int))
  else (decDigitsVal? t.data).map (fun n => (n : Int))

/-! ### Stream cipher (RC4/ARC4), from `rc4Decrypt` -/

/-- Swap two positions of a list (the state array `S`). -/
def listSwap (l : List Nat) (i j : Nat) : List Nat :=
  let vi := l.getD i 0
  let vj := l.getD j 0
  (l.set i vj).set j vi

/-- Key-scheduling algorithm: 256 swap steps over the identity state.
For an empty key the JS source indexes `key[i % 0] = undefined`, making
`j = NaN & 0xFF = 0` at every step; the `key.length = 0` branch reproduces
exactly that. -/
def rc4Ksa (key : List Nat) : List Nat :=
  ((List.range 256).foldl (fun p i =>
      let j := if key.length = 0 then 0
               else (p.2 + p.1.getD i 0 + key.getD (i % key.length) 0 % 256) % 256
      (listSwap p.1 i j, j))
    (List.range 256, 0)).1

/-- Pseudo-random generation: advance `(i, j)`, swap, and XOR each data
byte with the keystream byte. -/
def rc4Prga : List Nat → Nat → Nat → List Nat → List Nat
  | _, _, _, [] => []
  | S, i, j, d :: ds =>
    let i' := (i + 1) % 256
    let j' := (j + S.getD i' 0) % 256
    let S' := listSwap S i' j'
    let ks := S'.getD ((S'.getD i' 0 + S'.getD j' 0) % 256) 0
    (d ^^^ ks) % 256 :: rc4Prga S' i' j' ds

/-- `rc4Decrypt(key, data)` from the source. -/
def rc4Decrypt (key data : List Nat) : List Nat := rc4Prga (rc4Ksa key) 0 0 data

/-! ### Asset codec, from `assetIdToName` -/

/-- One step of the alphabetic-name loop: digits of `n` in bijective
base 26, least-significant last.  Fuel-structural (fuel `n` suffices since
`(n - 1) / 26 < n`). -/
def alphaDigitsAux : Nat → Nat → List Nat
  | _, 0 => []
  | 0, _ + 1 => []
  | fuel + 1, n + 1 => alphaDigitsAux fuel (n / 26) ++ [n % 26]

def alphaDigits (n : Nat) : List Nat := alphaDigitsAux n n

/-- The `while (remaining > 0)` loop of `assetIdToName`: bijective base-26
(Excel-column style) name, `A`..`Z` per digit. -/
def alphaName (n : Nat) : String := String.mk ((alphaDigits n).map (fun d => Char.ofNat (65 + d)))

/-- Value of a bijective base-26 digit string: the defining property of the
Excel-column naming (each digit `d` contributes `d + 1`). -/
def alphaVal (ds : List Nat) : Nat := ds.foldl (fun acc d => acc * 26 + (d + 1)) 0

/-- `assetIdToName` from the source (the `BigInt` input). -/
def assetIdToName (id : Int) : String :=
  if id = 0 then "BTC"
  else if id = 1 then "XCP"
  else if id ≥ 26 ^ 12 + 1 then "A" ++ toString id
  else if id ≥ 26 ^ 3 then alphaName id.toNat
  else "A" ++ toString id

/-! ### Address codec, from `shortAddressBytesToAddress`

The bitcoinjs-lib payment constructors are external collaborators of the
repository ("encode a hash + tag into a network address").  They are
modelled from the spec as functions that yield an address string exactly
when the hash/program has the length the constructor validates, and fail
(`none`, modelling the thrown exception / missing `.address`) otherwise.
The produced strings are abstract but injective renderings; what matters
for the claims is only that a produced address never equals the `"0x"+hex`
fallback literal, which holds for real Base58Check/bech32 strings too
(neither alphabet begins with `0x`). -/

structure Network where
  pubKeyHash : Nat
  scriptHash : Nat
  bech32 : String

/-- Modelled from the spec: `btc.payments.p2pkh({hash, network}).address`;
bitcoinjs validates a 20-byte hash160 and emits a Base58Check string. -/
def p2pkhAddress (hash : List Nat) (net : Network) : Option String :=
  if hash.length = 20 then some ("p2pkh:" ++ toString net.pubKeyHash ++ ":" ++ hexOfBytes hash)
  else none

/-- Modelled from the spec: `btc.payments.p2sh({hash, network}).address`. -/
def p2shAddress (hash : List Nat) (net : Network) : Option String :=
  if hash.length = 20 then some ("p2sh:" ++ toString net.scriptHash ++ ":" ++ hexOfBytes hash)
  else none

/-- Modelled from the spec: `btc.payments.p2wpkh({hash, network}).address`. -/
def p2wpkhAddress (hash : List Nat) (net : Network) : Option String :=
  if hash.length = 20 then some ("p2wpkh:" ++ net.bech32 ++ ":" ++ hexOfBytes hash)
  else none

/-- Modelled from the spec: `btc.payments.p2wsh({hash, network}).address`. -/
def p2wshAddress (hash : List Nat) (net : Network) : Option String :=
  if hash.length = 32 then some ("p2wsh:" ++ net.bech32 ++ ":" ++ hexOfBytes hash)
  else none

/-- Modelled from the spec: `btc.payments.p2tr({pubkey, network}).address`
(the curve-point validity check of the x-only pubkey is abstracted away;
no claim depends on a successful P2TR encoding). -/
def p2trAddress (pubkey : List Nat) (net : Network) : Option String :=
  if pubkey.length = 32 then some ("p2tr:" ++ net.bech32 ++ ":" ++ hexOfBytes pubkey)
  else none

/-- `shortAddressBytesToAddress` from the source.  The input is the byte
buffer (the source takes its hex rendering and re-parses it); every
`throw`, failing constructor, or missing `.address` collapses to the
`"0x"+hex` fallback exactly as the source's `try`-with-`catch` and
`|| fallback` do.  The three `0x80`–`0x8F` conditions do not return on
failure in the source but fall through to the legacy Base58Check
comparisons; the flattened `if` chain below reproduces that fall-through. -/
def shortAddressBytesToAddress (bytes : List Nat) (net : Network) : String :=
  let fallback := "0x" ++ hexOfBytes bytes
  if bytes.length < 2 then fallback
  else
    let firstByte := bytes.getD 0 0
    let data := bytes.drop 1
    if firstByte = 0x01 then
      match p2pkhAddress data net with
      | some a => a
      | none => fallback
    else if firstByte = 0x02 then
      match p2shAddress data net with
      | some a => a
      | none => fallback
    else if firstByte = 0x03 then
      if 2 ≤ data.length then
        let witnessVersion := data.getD 0 0
        let witnessProgram := data.drop 1
        if witnessVersion = 0 ∧ witnessProgram.length = 20 then
          match p2wpkhAddress witnessProgram net with
          | some a => a
          | none => fallback
        else if witnessVersion = 0 ∧ witnessProgram.length = 32 then
          match p2wshAddress witnessProgram net with
          | some a => a
          | none => fallback
        else if witnessVersion = 1 ∧ witnessProgram.length = 32 then
          match p2trAddress witnessProgram net with
          | some a => a
          | none => fallback
        else fallback
      else fallback
    else if 0x80 ≤ firstByte ∧ firstByte ≤ 0x8f ∧ firstByte - 0x80 = 0 ∧ data.length = 20 then
      match p2wpkhAddress data net with
      | some a => a
      | none => fallback
    else if 0x80 ≤ firstByte ∧ firstByte ≤ 0x8f ∧ firstByte - 0x80 = 0 ∧ data.length = 32 then
      match p2wshAddress data net with
      | some a => a
      | none => fallback
    else if 0x80 ≤ firstByte ∧ firstByte ≤ 0x8f ∧ firstByte - 0x80 = 1 ∧ data.length = 32 then
      match p2trAddress data net with
      | some a => a
      | none => fallback
    else if firstByte = net.pubKeyHash then
      match p2pkhAddress data net with
      | some a => a
      | none => fallback
    else if firstByte = net.scriptHash then
      match p2shAddress data net with
      | some a => a
      | none => fallback
    else fallback

/-! ### `decodeTextOrHex` -/

/-- `decodeTextOrHex` from the source: decode as UTF-8 when the MIME type
is empty or text-based and the bytes round-trip (the strict decoder
succeeds exactly when Node's decode-then-re-encode check passes);
otherwise lowercase hex. -/
def decodeTextOrHex (buffer : List Nat) (mimeType : String) : String :=
  let mimeTypeLower := mimeType.toLower.trim
  let isTextType := mimeTypeLower = "" ∨ mimeTypeLower.startsWith "text"
  if isTextType then
    match utf8Decode buffer with
    | some decoded => decoded
    | none => hexOfBytes buffer
  else hexOfBytes buffer

/-! ### Message framing, from `readMessageTypeId` -/

/-- `readMessageTypeId` from the source; `none` models the thrown
`Error`s (`'Empty message'` / `'Message too short for long ID'`). -/
def readMessageTypeId : List Nat → Option (Nat × List Nat)
  | [] => none
  | firstByte :: rest =>
    if firstByte > 0 then some (firstByte, rest)
    else
      match rest with
      | b1 :: b2 :: b3 :: b4 :: tail =>
        some (((b1 % 256 * 256 + b2 % 256) * 256 + b3 % 256) * 256 + b4 % 256, tail)
      | _ => none

/-! ### CBOR primitive

Modelled from the spec: the third-party `cbor-x` decode/encode functions
are external to the repository ("a byte-array-to-value primitive with
defined error behavior"); the spec pins the consumed wire format to
"CBOR per RFC 8949 (array major type, unsigned/negative integers, byte
strings, text strings, booleans)".  The model decodes exactly that
fragment (plus `null`/`undefined` and float64, which the library also
emits) and fails with an error string on anything else — every failure
surfaces through the decoders' common catch-all, so only *that* a given
input fails is observable, never the message text. -/

inductive CborValue where
  | int (n : Int)
  | bytes (bs : List Nat)
  | text (s : String)
  | bool (b : Bool)
  | null
  | undefined
  | float64 (bs : List Nat)
  | array (items : List CborValue)

/-- Read the argument ("additional information") of one CBOR head. -/
def cborReadArg (info : Nat) (rest : List Nat) : Except String (Nat × List Nat) :=
  if info < 24 then .ok (info, rest)
  else if info = 24 then
    match rest with
    | x :: r => .ok (x, r)
    | _ => .error "Unexpected end of CBOR data"
  else if info = 25 then
    match rest with
    | a :: b :: r => .ok (a * 256 + b, r)
    | _ => .error "Unexpected end of CBOR data"
  else if info = 26 then
    match rest with
    | a :: b :: c :: d :: r => .ok (((a * 256 + b) * 256 + c) * 256 + d, r)
    | _ => .error "Unexpected end of CBOR data"
  else if info = 27 then
    match rest with
    | a :: b :: c :: d :: e :: f :: g :: h :: r =>
      .ok ((((((((a * 256 + b) * 256 + c) * 256 + d) * 256 + e) * 256 + f) * 256 + g) * 256 + h), r)
    | _ => .error "Unexpected end of CBOR data"
  else .error "Invalid CBOR head"

mutual
/-- Decode one CBOR item, returning it and the unconsumed bytes.
Fuel-structural; `2 * bs.length + 2` fuel always suffices because every
recursive call either consumes a byte or steps to the next array element
(each of which consumes at least one byte). -/
def cborDecodeItem : Nat → List Nat → Except String (CborValue × List Nat)
  | 0, _ => .error "CBOR decode fuel exhausted"
  | _ + 1, [] => .error "Unexpected end of CBOR data"
  | fuel + 1, b :: rest => do
    let major := b % 256 / 32
    let info := b % 32
    if major = 0 then
      let (n, r) ← cborReadArg info rest
      .ok (.int (n : Int), r)
    else if major = 1 then
      let (n, r) ← cborReadArg info rest
      .ok (.int (-1 - (n : Int)), r)
    else if major = 2 then
      let (n, r) ← cborReadArg info rest
      if n ≤ r.length then .ok (.bytes (r.take n), r.drop n)
      else .error "Unexpected end of CBOR data"
    else if major = 3 then
      let (n, r) ← cborReadArg info rest
      if n ≤ r.length then .ok (.text (bufToUtf8 (r.take n)), r.drop n)
      else .error "Unexpected end of CBOR data"
    else if major = 4 then
      let (n, r) ← cborReadArg info rest
      let (items, r') ← cborDecodeItems fuel n r
      .ok (.array items, r')
    else if major = 7 then
      if info = 20 then .ok (.bool false, rest)
      else if info = 21 then .ok (.bool true, rest)
      else if info = 22 then .ok (.null, rest)
      else if info = 23 then .ok (.undefined, rest)
      else if info = 27 then
        if 8 ≤ rest.length then .ok (.float64 (rest.take 8), rest.drop 8)
        else .error "Unexpected end of CBOR data"
      else .error "Invalid CBOR simple value"
    else .error "Unsupported CBOR major type"

/-- Decode `count` consecutive CBOR items (the elements of an array). -/
def cborDecodeItems : Nat → Nat → List Nat → Except String (List CborValue × List Nat)
  | 0, _, _ => .error "CBOR decode fuel exhausted"
  | _ + 1, 0, bs => .ok ([], bs)
  | fuel + 1, count + 1, bs => do
    let (v, r) ← cborDecodeItem fuel bs
    let (vs, r') ← cborDecodeItems fuel count r
    .ok (v :: vs, r')
end

/-- `cbor-x` `decode`: decode the first item of the buffer. -/
def cborDecode (bs : List Nat) : Except String CborValue :=
  (cborDecodeItem (2 * bs.length + 2) bs).map Prod.fst

/-- Shortest-form CBOR head for major type `major` and argument `n`
(RFC 8949 preferred serialization, which `cbor-x` emits). -/
def cborHead (major : Nat) (n : Nat) : List Nat :=
  if n < 24 then [major * 32 + n]
  else if n < 256 then [major * 32 + 24, n]
  else if n < 65536 then [major * 32 + 25, n / 256, n % 256]
  else if n < 4294967296 then
    [major * 32 + 26, n / 16777216 % 256, n / 65536 % 256, n / 256 % 256, n % 256]
  else
    [major * 32 + 27, n / 2 ^ 56 % 256, n / 2 ^ 48 % 256, n / 2 ^ 40 % 256, n / 2 ^ 32 % 256,
      n / 16777216 % 256, n / 65536 % 256, n / 256 % 256, n % 256]

mutual
/-- `cbor-x` `encode` for the modelled value fragment (floats are carried
and re-emitted as their raw float64 bytes). -/
def cborEncode : CborValue → List Nat
  | .int n => if 0 ≤ n then cborHead 0 n.toNat else cborHead 1 (-1 - n).toNat
  | .bytes bs => cborHead 2 bs.length ++ bs
  | .text s => cborHead 3 (utf8Bytes s).length ++ utf8Bytes s
  | .bool b => [if b then 245 else 244]
  | .null => [246]
  | .undefined => [247]
  | .float64 bs => 251 :: bs
  | .array items => cborHead 4 items.length ++ cborEncodeList items

def cborEncodeList : List CborValue → List Nat
  | [] => []
  | v :: vs => cborEncode v ++ cborEncodeList vs
end

/-! ### CBOR value helpers used by the payload decoders -/

/-- JS truthiness of a decoded CBOR value (`undefined` models an absent
array index; a float is falsy only when its bytes are ±0.0 — `NaN`
truthiness is not distinguished by any decoded field a claim inspects). -/
def truthy : CborValue → Bool
  | .int n => n ≠ 0
  | .text s => s ≠ ""
  | .bool b => b
  | .null => false
  | .undefined => false
  | .float64 bs => ¬ (bs.all (· = 0) ∨ bs = 128 :: List.replicate 7 0)
  | .bytes _ => true
  | .array _ => true

/-- `decoded[i]` (out-of-range indexing yields `undefined` in JS). -/
def cborIdx (items : List CborValue) (i : Nat) : CborValue := items.getD i .undefined

/-- `x?.toString()`: `none` models `undefined` (the `?.` on `null`/absent
values).  Buffers stringify via UTF-8, bools to `"true"`/`"false"`; the
decimal rendering of floats and the comma-joining of arrays are abstract
(no claim inspects them). -/
def cborToStr? : CborValue → Option String
  | .null => none
  | .undefined => none
  | .int n => some (toString n)
  | .text s => some s
  | .bool b => some (if b then "true" else "false")
  | .bytes bs => some (bufToUtf8 bs)
  | .float64 bs => some ("float64:" ++ hexOfBytes bs)
  | .array _ => some "array"

/-- `BigInt(x?.toString())` as used on asset-id fields: succeeds on
integers and on decimal strings, throws otherwise. -/
def toBigIntE : CborValue → Except String Int
  | .int n => .ok n
  | .text s =>
    match parseBigInt? s with
    | some v => .ok v
    | none => .error "Cannot convert string to a BigInt"
  | .bytes bs =>
    match parseBigInt? (bufToUtf8 bs) with
    | some v => .ok v
    | none => .error "Cannot convert string to a BigInt"
  | _ => .error "Cannot convert value to a BigInt"

/-- `Buffer.isBuffer(x) ? x : Buffer.from(x)`: byte strings pass through,
text is UTF-8 encoded, arrays coerce elementwise (non-numbers to 0),
anything else makes `Buffer.from` throw. -/
def toBufferE : CborValue → Except String (List Nat)
  | .bytes bs => .ok bs
  | .text s => .ok (utf8Bytes s)
  | .array items =>
    .ok (items.map (fun v => match v with | .int n => ((n % 256).toNat % 256) | _ => 0))
  | _ => .error "Cannot create a Buffer from the value"

/-- `x || ''` on the MIME-type position: keeps a non-empty string, every
falsy value collapses to `''`.  (A truthy non-string there would crash JS
later inside `decodeTextOrHex`; the collapse to `''` is an abstraction no
claim can observe.) -/
def mimeTypeOf (v : CborValue) : String :=
  match v with
  | .text s => s
  | _ => ""

/-! ### Payload types (from `types.ts`) and the per-type decoders

Fields whose TS value can be `undefined` at runtime (produced by `?.` on a
null/absent element) are `Option String`; fields the source passes through
untyped from the CBOR value are kept as `CborValue`. -/

inductive TransactionPayload where
  | enhancedSend (asset : String) (quantity : Option String) (address : String) (memo : String)
  | sweep (address : String) (flags : CborValue) (memo : String)
  | issuance (asset : String) (quantity : Option String) (divisible lock reset : CborValue)
      (mime_type : String) (description : Option String)
  | issuanceSubasset (asset : String) (quantity : Option String)
      (divisible lock reset compacted_subasset_length : CborValue)
      (compacted_subasset_longname : String) (mime_type : String) (description : Option String)
  | broadcast (timestamp value fee_fraction_int : CborValue) (mime_type : String) (text : String)
  | fairminter (asset asset_parent : String)
      (price quantity_by_price max_mint_per_tx max_mint_per_address hard_cap
        premint_quantity : Option String)
      (start_block end_block : CborValue) (soft_cap : Option String)
      (soft_cap_deadline_block minted_asset_commission_int burn_payment lock_description
        lock_quantity divisible : CborValue)
      (mime_type : String) (description : String)
  | fairmint (asset : String) (quantity : Option String)
  | attach (asset quantity destination_vout : String)
  | detach (destination : String)
  | order (give_asset give_quantity get_asset get_quantity : String) (expiration : Nat)
      (fee_required : String)
  | btcPay (tx0_hash tx1_hash : String)
  | dispenser (asset give_quantity escrow_quantity satoshirate : String) (status : Nat)
      (action_address oracle_address : Option String)
  | dispense (data : String)
  | dividend (quantity_per_unit asset dividend_asset : String)
  | cancel (offer_hash : String)
  | destroy (asset quantity : String) (tag : Option String)
  | taprootCommit (data : String)
  | unknown (raw : String) (error : Option String)

/-- The hex-of-bytes memo fields: `x ? (hex of buffer) : ''`. -/
def memoField (v : CborValue) : Except String String :=
  if truthy v then (toBufferE v).map hexOfBytes else .ok ""

/-- `decodeEnhancedSend` (ID 2). -/
def decodeEnhancedSend (payload : List Nat) (net : Network) :
    Except String TransactionPayload := do
  let decoded ← cborDecode payload
  match decoded with
  | .array items =>
    if items.length < 3 then .error "Invalid enhanced send payload"
    else do
      let shortAddressBytes ← toBufferE (cborIdx items 2)
      let assetId ← toBigIntE (cborIdx items 0)
      let memo ← memoField (cborIdx items 3)
      .ok (.enhancedSend (assetIdToName assetId) (cborToStr? (cborIdx items 1))
        (shortAddressBytesToAddress shortAddressBytes net) memo)
  | _ => .error "Invalid enhanced send payload"

/-- `decodeSweep` (ID 4). -/
def decodeSweep (payload : List Nat) (net : Network) : Except String TransactionPayload := do
  let decoded ← cborDecode payload
  match decoded with
  | .array items =>
    if items.length < 2 then .error "Invalid sweep payload"
    else do
      let shortAddressBytes ← toBufferE (cborIdx items 0)
      let memo ← memoField (cborIdx items 2)
      .ok (.sweep (shortAddressBytesToAddress shortAddressBytes net) (cborIdx items 1) memo)
  | _ => .error "Invalid sweep payload"

/-- `decodeIssuance` (IDs 20, 22). -/
def decodeIssuance (payload : List Nat) : Except String TransactionPayload := do
  let decoded ← cborDecode payload
  match decoded with
  | .array items =>
    if items.length < 5 then .error "Invalid issuance payload"
    else do
      let assetId ← toBigIntE (cborIdx items 0)
      let mimeType := mimeTypeOf (cborIdx items 5)
      let description ←
        if truthy (cborIdx items 6) then do
          let descBuffer ← toBufferE (cborIdx items 6)
          .ok (some (decodeTextOrHex descBuffer mimeType))
        else .ok none
      .ok (.issuance (assetIdToName assetId) (cborToStr? (cborIdx items 1))
        (cborIdx items 2) (cborIdx items 3) (cborIdx items 4) mimeType description)
  | _ => .error "Invalid issuance payload"

/-- `decodeIssuanceSubasset` (IDs 21, 23). -/
def decodeIssuanceSubasset (payload : List Nat) : Except String TransactionPayload := do
  let decoded ← cborDecode payload
  match decoded with
  | .array items =>
    if items.length < 7 then .error "Invalid issuance subasset payload"
    else do
      let assetId ← toBigIntE (cborIdx items 0)
      let mimeType := mimeTypeOf (cborIdx items 7)
      let description ←
        if truthy (cborIdx items 8) then do
          let descBuffer ← toBufferE (cborIdx items 8)
          .ok (some (decodeTextOrHex descBuffer mimeType))
        else .ok none
      let longname ← (toBufferE (cborIdx items 6)).map hexOfBytes
      .ok (.issuanceSubasset (assetIdToName assetId) (cborToStr? (cborIdx items 1))
        (cborIdx items 2) (cborIdx items 3) (cborIdx items 4) (cborIdx items 5)
        longname mimeType description)
  | _ => .error "Invalid issuance subasset payload"

/-- `decodeBroadcast` (ID 30). -/
def decodeBroadcast (payload : List Nat) : Except String TransactionPayload := do
  let decoded ← cborDecode payload
  match decoded with
  | .array items =>
    if items.length < 4 then .error "Invalid broadcast payload"
    else do
      let mimeType := mimeTypeOf (cborIdx items 3)
      let text ←
        if truthy (cborIdx items 4) then do
          let textBuffer ← toBufferE (cborIdx items 4)
          .ok (decodeTextOrHex textBuffer mimeType)
        else .ok ""
      .ok (.broadcast (cborIdx items 0) (cborIdx items 1) (cborIdx items 2) mimeType text)
  | _ => .error "Invalid broadcast payload"

/-- `decodeFairminter` (ID 90). -/
def decodeFairminter (payload : List Nat) : Except String TransactionPayload := do
  let decoded ← cborDecode payload
  match decoded with
  | .array items =>
    if items.length < 17 then .error "Invalid fairminter payload"
    else do
      let assetId ← toBigIntE (cborIdx items 0)
      let assetParentId ← toBigIntE (cborIdx items 1)
      let mimeType := mimeTypeOf (cborIdx items 17)
      let description ←
        if truthy (cborIdx items 18) then do
          let descBuffer ← toBufferE (cborIdx items 18)
          .ok (decodeTextOrHex descBuffer mimeType)
        else .ok ""
      .ok (.fairminter (assetIdToName assetId) (assetIdToName assetParentId)
        (cborToStr? (cborIdx items 2)) (cborToStr? (cborIdx items 3))
        (cborToStr? (cborIdx items 4)) (cborToStr? (cborIdx items 5))
        (cborToStr? (cborIdx items 6)) (cborToStr? (cborIdx items 7))
        (cborIdx items 8) (cborIdx items 9) (cborToStr? (cborIdx items 10))
        (cborIdx items 11) (cborIdx items 12) (cborIdx items 13) (cborIdx items 14)
        (cborIdx items 15) (cborIdx items 16) mimeType description)
  | _ => .error "Invalid fairminter payload"

/-- `decodeFairmint` (ID 91). -/
def decodeFairmint (payload : List Nat) : Except String TransactionPayload := do
  let decoded ← cborDecode payload
  match decoded with
  | .array items =>
    if items.length < 2 then .error "Invalid fairmint payload"
    else do
      let assetId ← toBigIntE (cborIdx items 0)
      .ok (.fairmint (assetIdToName assetId) (cborToStr? (cborIdx items 1)))
  | _ => .error "Invalid fairmint payload"

/-- `decodeAttach` (ID 101). -/
def decodeAttach (payload : List Nat) : Except String TransactionPayload :=
  let raw := bufToUtf8 payload
  let parts := raw.splitOn "|"
  if parts.length < 2 then .error "Invalid attach payload"
  else .ok (.attach (parts.getD 0 "") (parts.getD 1 "") (parts.getD 2 ""))

/-- `decodeDetach` (ID 102). -/
def decodeDetach (payload : List Nat) : Except String TransactionPayload :=
  if payload.length = 1 ∧ payload.getD 0 0 = 0x30 then .ok (.detach "self")
  else .ok (.detach (bufToUtf8 payload))

/-- `decodeOrder` (ID 10). -/
def decodeOrder (payload : List Nat) : Except String TransactionPayload :=
  if payload.length < 34 then .error "Invalid order payload"
  else
    .ok (.order (assetIdToName (readU64 payload 0)) (toString (readI64 payload 8))
      (assetIdToName (readU64 payload 16)) (toString (readI64 payload 24))
      (readU16 payload 32)
      (if 42 ≤ payload.length then toString (readI64 payload 34) else "0"))

/-- `decodeBtcPay` (ID 11). -/
def decodeBtcPay (payload : List Nat) : Except String TransactionPayload :=
  if payload.length < 64 then .error "Invalid btc_pay payload"
  else .ok (.btcPay (hexOfBytes (payload.take 32)) (hexOfBytes ((payload.drop 32).take 32)))

/-- `decodeDispenser` (ID 12). -/
def decodeDispenser (payload : List Nat) (net : Network) : Except String TransactionPayload :=
  if payload.length < 33 then .error "Invalid dispenser payload"
  else
    .ok (.dispenser (assetIdToName (readU64 payload 0)) (toString (readI64 payload 8))
      (toString (readI64 payload 16)) (toString (readI64 payload 24))
      (payload.getD 32 0 % 256)
      (if 54 ≤ payload.length then
        some (shortAddressBytesToAddress ((payload.drop 33).take 21) net)
      else none)
      (if 75 ≤ payload.length then
        some (shortAddressBytesToAddress ((payload.drop 54).take 21) net)
      else none))

/-- `decodeDispense` (ID 13). -/
def decodeDispense (payload : List Nat) : Except String TransactionPayload :=
  if payload.length ≠ 1 ∨ payload.getD 0 0 ≠ 0x00 then
    .error "Invalid dispense payload: expected 0x00"
  else .ok (.dispense "0x00")

/-- `decodeDividend` (ID 50). -/
def decodeDividend (payload : List Nat) : Except String TransactionPayload :=
  if payload.length < 16 then .error "Invalid dividend payload"
  else
    .ok (.dividend (toString (readI64 payload 0)) (assetIdToName (readU64 payload 8))
      (if 24 ≤ payload.length then assetIdToName (readU64 payload 16) else "XCP"))

/-- `decodeCancel` (ID 70). -/
def decodeCancel (payload : List Nat) : Except String TransactionPayload :=
  if payload.length < 32 then .error "Invalid cancel payload"
  else .ok (.cancel (hexOfBytes (payload.take 32)))

/-- `decodeDestroy` (ID 110). -/
def decodeDestroy (payload : List Nat) : Except String TransactionPayload :=
  if payload.length < 16 then .error "Invalid destroy payload"
  else
    .ok (.destroy (assetIdToName (readU64 payload 0)) (toString (readI64 payload 8))
      (if 16 < payload.length then
        some (hexOfBytes ((payload.drop 16).take (min payload.length 50 - 16)))
      else none))

/-! ### Payload decoder dispatch, from `decodePayload` -/

/-- The ids of the `switch` cases of `decodePayload`. -/
def decoderTableIds : List Nat := [2, 4, 10, 11, 12, 13, 20, 21, 22, 23, 30, 50, 70, 90, 91, 101, 102, 110]

/-- The body of `decodePayload`'s `try` block: the `switch` on the
message id; the `default` case returns the raw-hex value (without an
error field) from inside the `try`. -/
def runDecoder (messageId : Nat) (payload : List Nat) (net : Network) :
    Except String TransactionPayload :=
  if messageId = 2 then decodeEnhancedSend payload net
  else if messageId = 4 then decodeSweep payload net
  else if messageId = 10 then decodeOrder payload
  else if messageId = 11 then decodeBtcPay payload
  else if messageId = 12 then decodeDispenser payload net
  else if messageId = 13 then decodeDispense payload
  else if messageId = 20 ∨ messageId = 22 then decodeIssuance payload
  else if messageId = 21 ∨ messageId = 23 then decodeIssuanceSubasset payload
  else if messageId = 30 then decodeBroadcast payload
  else if messageId = 50 then decodeDividend payload
  else if messageId = 70 then decodeCancel payload
  else if messageId = 90 then decodeFairminter payload
  else if messageId = 91 then decodeFairmint payload
  else if messageId = 101 then decodeAttach payload
  else if messageId = 102 then decodeDetach payload
  else if messageId = 110 then decodeDestroy payload
  else .ok (.unknown (hexOfBytes payload) none)

/-- `decodePayload` from the source: the `catch` turns any decoder error
into the `Unknown` shape carrying the payload hex and the error text. -/
def decodePayload (messageId : Nat) (payload : List Nat) (net : Network) : TransactionPayload :=
  match runDecoder messageId payload net with
  | .ok p => p
  | .error e => .unknown (hexOfBytes payload) (some e)

/-! ### Message-type registry, from `constants.ts` -/

/-- `MESSAGE_TYPES` from `constants.ts`. -/
def MESSAGE_TYPES (id : Nat) : Option String :=
  if id = 2 then some "enhanced_send"
  else if id = 3 then some "mpma_send"
  else if id = 4 then some "sweep"
  else if id = 10 then some "order"
  else if id = 11 then some "btc_pay"
  else if id = 12 then some "dispenser"
  else if id = 13 then some "dispense"
  else if id = 20 then some "issuance"
  else if id = 21 then some "issuance_subasset"
  else if id = 22 then some "issuance"
  else if id = 23 then some "issuance_subasset"
  else if id = 30 then some "broadcast"
  else if id = 50 then some "dividend"
  else if id = 70 then some "cancel"
  else if id = 90 then some "fairminter"
  else if id = 91 then some "fairmint"
  else if id = 101 then some "attach"
  else if id = 102 then some "detach"
  else if id = 110 then some "destroy"
  else none

/-- `MESSAGE_TYPES[messageId] || 'unknown'`. -/
def messageTypeName (id : Nat) : String := (MESSAGE_TYPES id).getD "unknown"

/-- `PREFIX_BYTES`: the 8 ASCII bytes of `"CNTRPRTY"`. -/
def PREFIX_BYTES : List Nat := [67, 78, 84, 82, 80, 82, 84, 89]

/-! ### OP_RETURN carrier, from `parse_op_return` -/

structure ParsedTransaction where
  message_name : String
  message_id : Nat
  params : TransactionPayload

/-- The `dataStart` computation of `parse_op_return`: offset of the
payload after the push opcode following `OP_RETURN`. -/
def opReturnDataStart (script : List Nat) : Nat :=
  if 1 < script.length then
    let pushOpcode := script.getD 1 0
    if pushOpcode < 76 then 2
    else if pushOpcode = 0x4c then 3
    else if pushOpcode = 0x4d then 4
    else if pushOpcode = 0x4e then 6
    else 1
  else 1

/-- `parse_op_return` from the source (the first-input txid argument is
taken already hex-decoded to its bytes, as `Buffer.from(txid, 'hex')`
produces).  `none` models the `null` returns, including the surrounding
`catch` that swallows the framing error. -/
def parse_op_return (scriptBuffer : List Nat) (firstInputTxid : List Nat) (net : Network) :
    Option ParsedTransaction :=
  if scriptBuffer.length = 0 ∨ scriptBuffer.getD 0 0 ≠ 0x6a then none
  else
    let opReturnData := scriptBuffer.drop (opReturnDataStart scriptBuffer)
    if opReturnData = PREFIX_BYTES then
      some ⟨"taproot_commit", 0, .taprootCommit "CNTRPRTY"⟩
    else
      let decrypted := rc4Decrypt firstInputTxid opReturnData
      if (decrypted.take 8) ≠ PREFIX_BYTES then none
      else
        let message := decrypted.drop 8
        if message.length = 0 then none
        else
          match readMessageTypeId message with
          | none => none
          | some (messageId, payload) =>
            some ⟨messageTypeName messageId, messageId, decodePayload messageId payload net⟩

/-! ### Taproot envelope carrier, from `reveal-parser.ts`

The cursor-into-script loops are modelled on the unconsumed suffix; the
fuel argument is always called with the suffix length, which suffices
because every iteration consumes at least one byte. -/

/-- The push-collection loop of `extractGenericEnvelope`.  `none` models
the `RangeError` thrown by `readUInt16LE`/`readUInt32LE` when fewer than
2/4 length bytes remain (caught by the source into a `null` result); a
`PUSHDATA1` opcode at the very end indexes `script[offset+1]` as
`undefined`, which in JS pushes an empty chunk and ends the loop — the
uniform `getD`/`take`/`drop` treatment reproduces that. -/
def collectGeneric : Nat → List Nat → Option (List Nat)
  | 0, _ => some []
  | _ + 1, [] => some []
  | fuel + 1, b :: rest =>
    if b = 0x68 then some []
    else if 1 ≤ b ∧ b ≤ 75 then
      (collectGeneric fuel (rest.drop b)).map (rest.take b ++ ·)
    else if b = 0x4c then
      (collectGeneric fuel ((rest.drop 1).drop (rest.getD 0 0))).map
        ((rest.drop 1).take (rest.getD 0 0) ++ ·)
    else if b = 0x4d then
      if rest.length < 2 then none
      else
        (collectGeneric fuel ((rest.drop 2).drop (rest.getD 0 0 + 256 * rest.getD 1 0))).map
          ((rest.drop 2).take (rest.getD 0 0 + 256 * rest.getD 1 0) ++ ·)
    else if b = 0x4e then
      if rest.length < 4 then none
      else
        (collectGeneric fuel ((rest.drop 4).drop
            (rest.getD 0 0 + 256 * rest.getD 1 0 + 65536 * rest.getD 2 0 +
              16777216 * rest.getD 3 0))).map
          ((rest.drop 4).take
            (rest.getD 0 0 + 256 * rest.getD 1 0 + 65536 * rest.getD 2 0 +
              16777216 * rest.getD 3 0) ++ ·)
    else collectGeneric fuel rest

/-- `extractGenericEnvelope(script, startOffset)` from the source. -/
def extractGenericEnvelope (script : List Nat) (startOffset : Nat) : Option (List Nat) :=
  collectGeneric (script.drop startOffset).length (script.drop startOffset)

/-- The metadata-collection loop of `extractOrdXcpEnvelope`: stops at
`OP_ENDIF` (0x68) or at a bare `OP_0` (0x00); recognizes only short
pushes and `PUSHDATA1`; skips every other opcode.  It cannot throw. -/
def collectOrd : Nat → List Nat → List Nat
  | 0, _ => []
  | _ + 1, [] => []
  | fuel + 1, b :: rest =>
    if b = 0x68 then []
    else if b = 0x00 then []
    else if b ≤ 75 then rest.take b ++ collectOrd fuel (rest.drop b)
    else if b = 0x4c then
      (rest.drop 1).take (rest.getD 0 0) ++ collectOrd fuel ((rest.drop 1).drop (rest.getD 0 0))
    else collectOrd fuel rest

/-- The optional-marker/mime-type prelude of `extractOrdXcpEnvelope`:
skip a 0x01 marker, read the one-byte-length-prefixed MIME type, skip a
0x05 marker; returns the MIME bytes and the collected CBOR metadata. -/
def ordXcpMeta (script : List Nat) (startOffset : Nat) : List Nat × List Nat :=
  let r0 := script.drop startOffset
  let r1 := if r0.getD 0 0 = 0x01 then r0.drop 1 else r0
  let mimeTypeLen := r1.getD 0 0
  let mimeType := (r1.drop 1).take mimeTypeLen
  let r2 := (r1.drop 1).drop mimeTypeLen
  let r3 := if r2.getD 0 0 = 0x05 then r2.drop 1 else r2
  (mimeType, collectOrd r3.length r3)

/-- The re-framing prefix of `extractOrdXcpEnvelope`: ids in (0, 256) are
emitted as a single byte; otherwise `writeUInt32BE` produces the 5-byte
long form and throws (hence `none`, caught into a `null` result) outside
the unsigned 32-bit range. -/
def reframeId (messageTypeId : Int) : Option (List Nat) :=
  if 0 < messageTypeId ∧ messageTypeId < 256 then some [messageTypeId.toNat]
  else if 0 ≤ messageTypeId ∧ messageTypeId ≤ 4294967295 then
    some [0, messageTypeId.toNat / 16777216 % 256, messageTypeId.toNat / 65536 % 256,
      messageTypeId.toNat / 256 % 256, messageTypeId.toNat % 256]
  else none

/-- `extractOrdXcpEnvelope(script, startOffset)` from the source: decode
the collected metadata as CBOR; require a non-empty array; take the first
element as the message-type id (a non-integer id makes the JS
`writeUInt32BE` coercion throw); re-encode the remaining elements with
the MIME-type string appended, prefixed by the re-framed id. -/
def extractOrdXcpEnvelope (script : List Nat) (startOffset : Nat) : Option (List Nat) :=
  let meta := ordXcpMeta script startOffset
  match cborDecode meta.2 with
  | .ok (.array (first :: restItems)) =>
    match first with
    | .int messageTypeId =>
      (reframeId messageTypeId).map
        (· ++ cborEncode (.array (restItems ++ [.text (bufToUtf8 meta.1)])))
    | _ => none
  | _ => none

/-- The `"ord" … "xcp"` detection of `extractFromEnvelope`: from offset 2,
match the literal bytes `"ord"`, tolerate one 0x07 byte, then match the
literal bytes `"xcp"`; yields the offset right after `"xcp"`. -/
def ordXcpOffset (script : List Nat) : Option Nat :=
  if 5 ≤ script.length ∧ (script.drop 2).take 3 = [111, 114, 100] then
    let off := if script.getD 5 0 = 0x07 then 6 else 5
    if off + 3 ≤ script.length ∧ (script.drop off).take 3 = [120, 99, 112] then some (off + 3)
    else none
  else none

/-- `extractFromEnvelope` from the source: check the `OP_FALSE OP_IF`
marker, try the ord/xcp grammar, otherwise fall back to the generic
envelope from offset 2. -/
def extractFromEnvelope (script : List Nat) : Option (List Nat) :=
  if script.length < 4 ∨ script.getD 0 0 ≠ 0x00 ∨ script.getD 1 0 ≠ 0x63 then none
  else
    match ordXcpOffset script with
    | some off => extractOrdXcpEnvelope script off
    | none => extractGenericEnvelope script 2

/-- The part of `parse_reveal_tx` downstream of the (external, bitcoinjs)
witness extraction: envelope extraction, framing, name lookup and payload
dispatch on the candidate envelope script. -/
def parseEnvelopeScript (script : List Nat) (net : Network) : Option ParsedTransaction :=
  match extractFromEnvelope script with
  | none => none
  | some message =>
    if message.length = 0 then none
    else
      match readMessageTypeId message with
      | none => none
      | some (messageId, payload) =>
        some ⟨messageTypeName messageId, messageId, decodePayload messageId payload net⟩

/-! ### Lemmas about the stream cipher -/

lemma getD_lt_of_forall {l : List Nat} (h : ∀ x ∈ l, x < 256) (n : Nat) : l.getD n 0 < 256 := by
  by_cases hn : n < l.length
  · rw [List.getD_eq_getElem l 0 hn]
    exact h _ (List.getElem_mem hn)
  · rw [List.getD_eq_default l 0 (by omega)]
    omega

lemma listSwap_lt {l : List Nat} {i j : Nat} (h : ∀ x ∈ l, x < 256) :
    ∀ x ∈ listSwap l i j, x < 256 := by
  intro x hx
  unfold listSwap at hx
  rcases List.mem_or_eq_of_mem_set hx with h1 | h1
  · rcases List.mem_or_eq_of_mem_set h1 with h2 | h2
    · exact h _ h2
    · subst h2; exact getD_lt_of_forall h j
  · subst h1; exact getD_lt_of_forall h i

lemma rc4Ksa_lt (key : List Nat) : ∀ x ∈ rc4Ksa key, x < 256 := by
  unfold rc4Ksa
  have base : ∀ x ∈ List.range 256, x < 256 := by
    intro x hx; exact List.mem_range.mp hx
  have main : ∀ (idxs : List Nat) (p : List Nat × Nat), (∀ x ∈ p.1, x < 256) →
      ∀ x ∈ (idxs.foldl (fun p i =>
          let j := if key.length = 0 then 0
                   else (p.2 + p.1.getD i 0 + key.getD (i % key.length) 0 % 256) % 256
          (listSwap p.1 i j, j)) p).1, x < 256 := by
    intro idxs
    induction idxs with
    | nil => intro p hp; exact hp
    | cons i idxs ih =>
      intro p hp
      exact ih _ (listSwap_lt hp)
  exact main (List.range 256) (List.range 256, 0) base

lemma rc4Prga_length (S : List Nat) (i j : Nat) (ds : List Nat) :
    (rc4Prga S i j ds).length = ds.length := by
  induction ds generalizing S i j with
  | nil => rfl
  | cons d ds ih => simp only [rc4Prga, List.length_cons, ih]

lemma rc4Prga_involutive : ∀ (ds S : List Nat) (i j : Nat),
    (∀ x ∈ S, x < 256) → (∀ d ∈ ds, d < 256) →
    rc4Prga S i j (rc4Prga S i j ds) = ds := by
  intro ds
  induction ds with
  | nil => intro S i j _ _; rfl
  | cons d ds ih =>
    intro S i j hS hd
    have hS' : ∀ x ∈ listSwap S ((i + 1) % 256) ((j + S.getD ((i + 1) % 256) 0) % 256), x < 256 :=
      listSwap_lt hS
    have hks : (listSwap S ((i + 1) % 256) ((j + S.getD ((i + 1) % 256) 0) % 256)).getD
        (((listSwap S ((i + 1) % 256) ((j + S.getD ((i + 1) % 256) 0) % 256)).getD
            ((i + 1) % 256) 0 +
          (listSwap S ((i + 1) % 256) ((j + S.getD ((i + 1) % 256) 0) % 256)).getD
            ((j + S.getD ((i + 1) % 256) 0) % 256) 0) % 256) 0 < 256 :=
      getD_lt_of_forall hS' _
    have hdlt : d < 256 := hd d (List.mem_cons_self d ds)
    have hxor : d ^^^ _ < 256 := Nat.xor_lt_two_pow (n := 8) hdlt hks
    simp only [rc4Prga, List.cons.injEq]
    refine ⟨?_, ?_⟩
    · rw [Nat.mod_eq_of_lt hxor, Nat.xor_cancel_right, Nat.mod_eq_of_lt hdlt]
    · exact ih _ _ _ hS' (fun x hx => hd x (List.mem_cons_of_mem d hx))

/-- C2: for every non-empty key and every data buffer, applying the RC4
keystream function twice with the same key returns the original data, and
each application preserves the length. -/
theorem C2_rc4_involution (key data : List Nat) (hkey : key ≠ [])
    (hkeyBytes : ∀ b ∈ key, b < 256) (hdataBytes : ∀ b ∈ data, b < 256) :
    rc4Decrypt key (rc4Decrypt key data) = data ∧
      (rc4Decrypt key data).length = data.length := by
  refine ⟨?_, ?_⟩
  · exact rc4Prga_involutive data (rc4Ksa key) 0 0 (rc4Ksa_lt key) hdataBytes
  · exact rc4Prga_length _ 0 0 data

/-- Witness for C2 at the concrete key `[0x01]` and data `[0x05, 0xff]`. -/
theorem C2_rc4_involution_witness :
    rc4Decrypt [1] (rc4Decrypt [1] [5, 255]) = [5, 255] ∧
      (rc4Decrypt [1] [5, 255]).length = ([5, 255] : List Nat).length :=
  C2_rc4_involution [1] [5, 255] (by decide) (by decide) (by decide)

/-! ### Lemmas about the asset codec -/

lemma alphaVal_append (ds : List Nat) (d : Nat) :
    alphaVal (ds ++ [d]) = alphaVal ds * 26 + (d + 1) := by
  simp [alphaVal, List.foldl_append]

lemma alphaVal_alphaDigitsAux : ∀ fuel n, n ≤ fuel → alphaVal (alphaDigitsAux fuel n) = n := by
  intro fuel
  induction fuel with
  | zero =>
    intro n hn
    have h0 : n = 0 := by omega
    subst h0
    simp [alphaDigitsAux, alphaVal]
  | succ fuel ih =>
    intro n hn
    match n with
    | 0 => simp [alphaDigitsAux, alphaVal]
    | m + 1 =>
      have h1 : m / 26 ≤ fuel := le_trans (Nat.div_le_self m 26) (by omega)
      simp only [alphaDigitsAux]
      rw [alphaVal_append, ih (m / 26) h1]
      omega

lemma alphaDigitsAux_lt : ∀ fuel n, ∀ d ∈ alphaDigitsAux fuel n, d < 26 := by
  intro fuel
  induction fuel with
  | zero =>
    intro n d hd
    match n with
    | 0 => simp [alphaDigitsAux] at hd
    | m + 1 => simp [alphaDigitsAux] at hd
  | succ fuel ih =>
    intro n d hd
    match n with
    | 0 => simp [alphaDigitsAux] at hd
    | m + 1 =>
      simp only [alphaDigitsAux, List.mem_append, List.mem_singleton] at hd
      rcases hd with h | h
      · exact ih _ _ h
      · subst h; exact Nat.mod_lt _ (by omega)

/-- C3: the asset-id → name mapping: `0 → BTC`, `1 → XCP`, decimal
`"A" + id` on `[2, 26^3)` and on `[26^12 + 1, ∞)`, and the bijective
base-26 alphabetic name on `[26^3, 26^12 + 1)` (witnessed by the digits
being in `A`–`Z` range and evaluating back to the id under the bijective
base-26 valuation), with `26^3 → "YYZ"` and `26^3 + 1 → "YZA"`.  The
mapping is a total Lean function of the integer. -/
theorem C3_assetIdToName_spec :
    assetIdToName 0 = "BTC" ∧ assetIdToName 1 = "XCP" ∧
    (∀ id : Int, 2 ≤ id → id < 26 ^ 3 → assetIdToName id = "A" ++ toString id) ∧
    (∀ id : Nat, 26 ^ 3 ≤ id → id < 26 ^ 12 + 1 →
      assetIdToName (id : Int) = alphaName id ∧ alphaVal (alphaDigits id) = id ∧
        ∀ d ∈ alphaDigits id, d < 26) ∧
    assetIdToName (26 ^ 3) = "YYZ" ∧ assetIdToName (26 ^ 3 + 1) = "YZA" ∧
    (∀ id : Int, 26 ^ 12 + 1 ≤ id → assetIdToName id = "A" ++ toString id) := by
  have e3 : (26 : Int) ^ 3 = 17576 := by norm_num
  have e12 : (26 : Int) ^ 12 = 95428956661682176 := by norm_num
  refine ⟨by decide, by decide, ?_, ?_, by decide, by decide, ?_⟩
  · intro id h2 h3
    unfold assetIdToName
    rw [if_neg (by omega), if_neg (by omega), if_neg (by omega), if_neg (by omega)]
  · intro id hlo hhi
    have hlo' : (26 : Int) ^ 3 ≤ (id : Int) := by exact_mod_cast hlo
    have hhi' : (id : Int) < 26 ^ 12 + 1 := by exact_mod_cast hhi
    refine ⟨?_, ?_, ?_⟩
    · unfold assetIdToName
      rw [if_neg (by omega), if_neg (by omega), if_neg (by omega), if_pos (by omega)]
      simp
    · exact alphaVal_alphaDigitsAux id id le_rfl
    · exact alphaDigitsAux_lt id id
  · intro id hid
    unfold assetIdToName
    rw [if_neg (by omega), if_neg (by omega), if_pos (by omega)]

/-- Witness for C3 in each hypothesis-guarded region: a decimal id below
the alphabetic threshold, an alphabetic id, and a decimal id above the
numeric threshold. -/
theorem C3_assetIdToName_spec_witness :
    assetIdToName 100 = "A" ++ toString (100 : Int) ∧
      assetIdToName ((20000 : Nat) : Int) = alphaName 20000 ∧
      assetIdToName (95428956661682177 + 5) = "A" ++ toString ((95428956661682177 + 5 : Nat) : Int) := by
  refine ⟨C3_assetIdToName_spec.2.2.1 100 (by norm_num) (by norm_num),
    (C3_assetIdToName_spec.2.2.2.1 20000 (by norm_num) (by norm_num)).1,
    ?_⟩
  have := C3_assetIdToName_spec.2.2.2.2.2.2 ((95428956661682177 + 5 : Nat) : Int) (by norm_num)
  exact_mod_cast this

/-- C5: message framing.  The empty buffer fails; a non-zero first byte is
the id with the remaining bytes as `rest`; a zero first byte needs 5 bytes
and reads the id as the big-endian 32-bit value of bytes 1–4 (any 32-bit
value, also below 256), with `rest` the bytes after the fifth; concretely
`[0x00, 0x00, 0x00, 0x04, 0xD2, 0xAA]` gives id 1234 and rest `[0xAA]`. -/
theorem C5_readMessageTypeId_spec :
    readMessageTypeId [] = none ∧
    (∀ b rest, 0 < b → readMessageTypeId (b :: rest) = some (b, rest)) ∧
    (∀ msg : List Nat, msg.getD 0 0 = 0 → msg ≠ [] → msg.length < 5 →
      readMessageTypeId msg = none) ∧
    (∀ b1 b2 b3 b4 tail, b1 < 256 → b2 < 256 → b3 < 256 → b4 < 256 →
      readMessageTypeId (0 :: b1 :: b2 :: b3 :: b4 :: tail) =
        some (b1 * 16777216 + b2 * 65536 + b3 * 256 + b4, tail)) ∧
    readMessageTypeId [0x00, 0x00, 0x00, 0x04, 0xD2, 0xAA] = some (1234, [0xAA]) := by
  refine ⟨rfl, ?_, ?_, ?_, by decide⟩
  · intro b rest hb
    simp [readMessageTypeId, hb]
  · intro msg h0 hne hlen
    match msg with
    | [] => exact absurd rfl hne
    | b :: rest =>
      have hb : b = 0 := by simpa [List.getD] using h0
      subst hb
      match rest with
      | [] => rfl
      | [_] => rfl
      | [_, _] => rfl
      | [_, _, _] => rfl
      | _ :: _ :: _ :: _ :: _ :: _ =>
        exact absurd hlen (by simp)
  · intro b1 b2 b3 b4 tail h1 h2 h3 h4
    simp only [readMessageTypeId]
    rw [if_neg (by omega)]
    have e1 : b1 % 256 = b1 := Nat.mod_eq_of_lt h1
    have e2 : b2 % 256 = b2 := Nat.mod_eq_of_lt h2
    have e3 : b3 % 256 = b3 := Nat.mod_eq_of_lt h3
    have e4 : b4 % 256 = b4 := Nat.mod_eq_of_lt h4
    rw [e1, e2, e3, e4]
    congr 2
    ring

/-- Witness for C5: the one-byte form, the too-short long form, and the
general long form, at concrete buffers. -/
theorem C5_readMessageTypeId_spec_witness :
    readMessageTypeId [2, 170, 187] = some (2, [170, 187]) ∧
      readMessageTypeId [0, 1, 2] = none ∧
      readMessageTypeId [0, 0, 1, 0, 0, 99] = some (65536, [99]) := by
  refine ⟨C5_readMessageTypeId_spec.2.1 2 [170, 187] (by decide), ?_, ?_⟩
  · exact C5_readMessageTypeId_spec.2.2.1 [0, 1, 2] (by decide) (by decide) (by decide)
  · have := C5_readMessageTypeId_spec.2.2.2.1 0 1 0 0 [99]
      (by decide) (by decide) (by decide) (by decide)
    simpa using this

/-- C9: `decodeDestroy` accepts every payload of at least 16 bytes; at
exactly 16 bytes there is no tag; above 16 bytes the tag is the hex of
bytes `[16, min(length, 50))`; bytes from offset 50 on are silently
dropped (the result equals the result on the 50-byte truncation), never an
error. -/
theorem C9_decodeDestroy_spec (payload : List Nat) (h16 : 16 ≤ payload.length) :
    (decodeDestroy payload).isOk = true ∧
    (payload.length = 16 →
      decodeDestroy payload =
        .ok (.destroy (assetIdToName (readU64 payload 0)) (toString (readI64 payload 8)) none)) ∧
    (16 < payload.length →
      decodeDestroy payload =
        .ok (.destroy (assetIdToName (readU64 payload 0)) (toString (readI64 payload 8))
          (some (hexOfBytes ((payload.drop 16).take (min payload.length 50 - 16)))))) ∧
    (50 ≤ payload.length → decodeDestroy payload = decodeDestroy (payload.take 50)) := by
  refine ⟨?_, ?_, ?_, ?_⟩
  · unfold decodeDestroy
    rw [if_neg (by omega)]
    rfl
  · intro hlen
    unfold decodeDestroy
    rw [if_neg (by omega), if_neg (by omega)]
  · intro hlen
    unfold decodeDestroy
    rw [if_neg (by omega), if_pos (by omega)]
  · intro h50
    have hlt : (payload.take 50).length = 50 := by
      rw [List.length_take]
      omega
    have hu : readU64 (payload.take 50) 0 = readU64 payload 0 := by
      unfold readU64
      rw [List.drop_take]
      simp [List.take_take, Nat.min_def]
    have hi : readI64 (payload.take 50) 8 = readI64 payload 8 := by
      unfold readI64 readU64
      rw [List.drop_take]
      simp [List.take_take, Nat.min_def]
    have htag : ((payload.take 50).drop 16).take (min (payload.take 50).length 50 - 16) =
        (payload.drop 16).take (min payload.length 50 - 16) := by
      rw [hlt, List.drop_take, List.take_take]
      have h1 : min payload.length 50 = 50 := by omega
      rw [h1]
      norm_num
    have hLout : decodeDestroy payload =
        .ok (.destroy (assetIdToName (readU64 payload 0)) (toString (readI64 payload 8))
          (some (hexOfBytes ((payload.drop 16).take (min payload.length 50 - 16))))) := by
      unfold decodeDestroy
      rw [if_neg (by omega), if_pos (by omega)]
    have hRout : decodeDestroy (payload.take 50) =
        .ok (.destroy (assetIdToName (readU64 (payload.take 50) 0))
          (toString (readI64 (payload.take 50) 8))
          (some (hexOfBytes (((payload.take 50).drop 16).take
            (min (payload.take 50).length 50 - 16))))) := by
      unfold decodeDestroy
      rw [if_neg (by rw [hlt]; omega), if_pos (by rw [hlt]; omega)]
    rw [hLout, hRout, hu, hi, htag]

/-- Witness for C9 at a concrete 60-byte payload (and its 17-byte variant
for the tagged shape). -/
theorem C9_decodeDestroy_spec_witness :
    (decodeDestroy (List.replicate 60 7)).isOk = true ∧
      decodeDestroy (List.replicate 60 7) = decodeDestroy ((List.replicate 60 7).take 50) ∧
      decodeDestroy [0, 0, 0, 0, 0, 0, 0, 1, 0, 0, 0, 0, 0, 0, 0, 2, 0xAB] =
        .ok (.destroy (assetIdToName (readU64 [0, 0, 0, 0, 0, 0, 0, 1, 0, 0, 0, 0, 0, 0, 0, 2, 0xAB] 0))
          (toString (readI64 [0, 0, 0, 0, 0, 0, 0, 1, 0, 0, 0, 0, 0, 0, 0, 2, 0xAB] 8))
          (some (hexOfBytes (([0, 0, 0, 0, 0, 0, 0, 1, 0, 0, 0, 0, 0, 0, 0, 2, 0xAB].drop 16).take
            (min ([0, 0, 0, 0, 0, 0, 0, 1, 0, 0, 0, 0, 0, 0, 0, 2, 0xAB] : List Nat).length 50 - 16))))) := by
  refine ⟨(C9_decodeDestroy_spec (List.replicate 60 7) (by decide)).1,
    (C9_decodeDestroy_spec (List.replicate 60 7) (by decide)).2.2.2 (by decide),
    (C9_decodeDestroy_spec _ (by decide)).2.2.1 (by decide)⟩

/-- The bitcoin mainnet network parameters (`btc.networks.bitcoin`). -/
def mainnet : Network := ⟨0x00, 0x05, "bc"⟩

/-- C1: totality of the payload dispatch.  `decodePayload` is a total Lean
function; an id absent from the dispatch table yields the raw-hex value
with no error field, and an id whose selected decoder fails yields the
raw-hex value carrying that failure's message text. -/
theorem C1_decodePayload_total (messageId : Nat) (payload : List Nat) (net : Network) :
    (messageId ∉ decoderTableIds →
      decodePayload messageId payload net = .unknown (hexOfBytes payload) none) ∧
    (messageId ∈ decoderTableIds → ∀ e, runDecoder messageId payload net = .error e →
      decodePayload messageId payload net = .unknown (hexOfBytes payload) (some e)) := by
  constructor
  · intro hmem
    simp only [decoderTableIds, List.mem_cons, List.not_mem_nil, or_false] at hmem
    push_neg at hmem
    obtain ⟨n2, n4, n10, n11, n12, n13, n20, n21, n22, n23, n30, n50, n70, n90, n91,
      n101, n102, n110⟩ := hmem
    simp [decodePayload, runDecoder, n2, n4, n10, n11, n12, n13, n20, n21, n22, n23,
      n30, n50, n70, n90, n91, n101, n102, n110]
  · intro _ e herr
    simp [decodePayload, herr]

/-- Witness for C1: id 999 (absent from the table) and id 13 with an empty
payload (whose decoder fails). -/
theorem C1_decodePayload_total_witness :
    decodePayload 999 [0xAB] mainnet = .unknown (hexOfBytes [0xAB]) none ∧
      decodePayload 13 [] mainnet =
        .unknown (hexOfBytes []) (some "Invalid dispense payload: expected 0x00") :=
  ⟨(C1_decodePayload_total 999 [0xAB] mainnet).1 (by decide),
    (C1_decodePayload_total 13 [] mainnet).2 (by decide) _ rfl⟩

/-! ### C4: the address-codec fallback -/

/-- The tag bytes the address codec recognizes. -/
def recognizedTag (net : Network) (tag : Nat) : Prop :=
  tag = 0x01 ∨ tag = 0x02 ∨ tag = 0x03 ∨ (0x80 ≤ tag ∧ tag ≤ 0x8f) ∨
    tag = net.pubKeyHash ∨ tag = net.scriptHash

instance (net : Network) (tag : Nat) : Decidable (recognizedTag net tag) := by
  unfold recognizedTag
  infer_instance

/-- The (witness version, program length) pairs the codec accepts. -/
def validWitnessPair (v len : Nat) : Prop :=
  (v = 0 ∧ len = 20) ∨ (v = 0 ∧ len = 32) ∨ (v = 1 ∧ len = 32)

instance (v len : Nat) : Decidable (validWitnessPair v len) := by
  unfold validWitnessPair
  infer_instance

/-- A network whose legacy pubkey-hash version byte lies inside the
segwit-marker range, and a 21-byte buffer whose tag is that byte with
witness version 1 and a 20-byte program — an invalid (version, length)
pair per the claim. -/
def netC4 : Network := ⟨0x81, 0x05, "bc"⟩

def bufC4 : List Nat := 0x81 :: List.replicate 20 0xAA

/-- Counterexample to C4 as stated: `bufC4`'s tag 0x81 is a segwit marker
whose (witness version, program length) pair (1, 20) is not accepted, so
the claim demands the `"0x"+hex` fallback; but the source falls through
the failed segwit-marker conditions to the legacy Base58Check comparison,
matches `netC4.pubKeyHash = 0x81`, and returns a P2PKH address (the
modelled constructor succeeds exactly when bitcoinjs's does: the hash has
20 bytes; a real Base58Check string also never starts with `"0x"`). -/
theorem C4_fallback_counterexample :
    (0x80 ≤ bufC4.getD 0 0 ∧ bufC4.getD 0 0 ≤ 0x8f) ∧
      ¬ validWitnessPair (bufC4.getD 0 0 - 0x80) (bufC4.drop 1).length ∧
      shortAddressBytesToAddress bufC4 netC4 ≠ "0x" ++ hexOfBytes bufC4 := by
  refine ⟨by decide, by decide, ?_⟩
  decide

/-- C4 (amended): `shortAddressBytesToAddress` is a total Lean function,
and it returns exactly `"0x" + hex` whenever the buffer is shorter than
2 bytes, or its tag matches none of 0x01/0x02/0x03/0x80–0x8F/the
network's version bytes, or the tag is 0x03 with an invalid (witness
version, program length) pair, or the tag is a segwit marker 0x80–0x8F
with an invalid pair *that also differs from the network's pubkey-hash
and script-hash bytes* (when the marker coincides with one of those two
bytes the source falls through to the legacy Base58Check path instead). -/
theorem C4_fallback_amended (bytes : List Nat) (net : Network)
    (h : bytes.length < 2 ∨
      (¬ recognizedTag net (bytes.getD 0 0)) ∨
      (bytes.getD 0 0 = 0x03 ∧
        ¬ validWitnessPair ((bytes.drop 1).getD 0 0) ((bytes.drop 1).length - 1)) ∨
      (0x80 ≤ bytes.getD 0 0 ∧ bytes.getD 0 0 ≤ 0x8f ∧
        ¬ validWitnessPair (bytes.getD 0 0 - 0x80) (bytes.drop 1).length ∧
        bytes.getD 0 0 ≠ net.pubKeyHash ∧ bytes.getD 0 0 ≠ net.scriptHash)) :
    shortAddressBytesToAddress bytes net = "0x" ++ hexOfBytes bytes := by
  unfold shortAddressBytesToAddress
  by_cases h2 : bytes.length < 2
  · rw [if_pos h2]
  rw [if_neg h2]
  rcases h with h | h | h | h
  · exact absurd h h2
  · unfold recognizedTag at h
    simp only [not_or] at h
    obtain ⟨n1, n2, n3, nseg, npkh, nsh⟩ := h
    rw [if_neg n1, if_neg n2, if_neg n3, if_neg (by intro hc; exact nseg ⟨hc.1, hc.2.1⟩),
      if_neg (by intro hc; exact nseg ⟨hc.1, hc.2.1⟩),
      if_neg (by intro hc; exact nseg ⟨hc.1, hc.2.1⟩), if_neg npkh, if_neg nsh]
  · obtain ⟨h3, hpair⟩ := h
    unfold validWitnessPair at hpair
    rw [if_neg (by omega), if_neg (by omega), if_pos h3]
    by_cases hd2 : 2 ≤ (bytes.drop 1).length
    · rw [if_pos hd2]
      have hlen : ((bytes.drop 1).drop 1).length = (bytes.drop 1).length - 1 := by
        rw [List.length_drop]
      rw [if_neg (by
          intro hc
          exact hpair (Or.inl ⟨hc.1, by omega⟩)),
        if_neg (by
          intro hc
          exact hpair (Or.inr (Or.inl ⟨hc.1, by omega⟩))),
        if_neg (by
          intro hc
          exact hpair (Or.inr (Or.inr ⟨hc.1, by omega⟩)))]
    · rw [if_neg hd2]
  · obtain ⟨hseglo, hseghi, hpair, hpkh, hsh⟩ := h
    unfold validWitnessPair at hpair
    rw [if_neg (by omega), if_neg (by omega), if_neg (by omega),
      if_neg (by
        intro hc
        exact hpair (Or.inl ⟨by omega, hc.2.2.2⟩)),
      if_neg (by
        intro hc
        exact hpair (Or.inr (Or.inl ⟨by omega, hc.2.2.2⟩))),
      if_neg (by
        intro hc
        exact hpair (Or.inr (Or.inr ⟨by omega, hc.2.2.2⟩))),
      if_neg hpkh, if_neg hsh]

/-- Witness for the amended C4: a one-byte buffer, an unrecognized tag,
a tag-0x03 buffer with a bad pair, and a segwit marker distinct from the
network bytes with a bad pair. -/
theorem C4_fallback_amended_witness :
    shortAddressBytesToAddress [0xff] mainnet = "0x" ++ hexOfBytes [0xff] ∧
      shortAddressBytesToAddress [0xff, 0x12, 0x34] mainnet = "0x" ++ hexOfBytes [0xff, 0x12, 0x34] ∧
      shortAddressBytesToAddress [0x03, 0x00, 0x01] mainnet =
        "0x" ++ hexOfBytes [0x03, 0x00, 0x01] ∧
      shortAddressBytesToAddress (0x82 :: List.replicate 20 0xCD) mainnet =
        "0x" ++ hexOfBytes (0x82 :: List.replicate 20 0xCD) :=
  ⟨C4_fallback_amended [0xff] mainnet (by decide),
    C4_fallback_amended [0xff, 0x12, 0x34] mainnet (by decide),
    C4_fallback_amended [0x03, 0x00, 0x01] mainnet (by decide),
    C4_fallback_amended (0x82 :: List.replicate 20 0xCD) mainnet (by decide)⟩

/-! ### C6 and C10: the OP_RETURN carrier -/

/-- C6: `parse_op_return` returns the no-match sentinel for a non-OP_RETURN
script; returns the fixed `taproot_commit` message when the extracted
candidate equals the literal magic; and returns the no-match sentinel
(never an error or an Unknown message) when the candidate decrypts to
bytes whose first 8 are not the magic, or to the magic with an empty
remainder. -/
theorem C6_parse_op_return_nomatch (script key : List Nat) (net : Network) :
    ((script = [] ∨ script.getD 0 0 ≠ 0x6a) → parse_op_return script key net = none) ∧
    (script.getD 0 0 = 0x6a → script ≠ [] →
      (script.drop (opReturnDataStart script) = PREFIX_BYTES →
        parse_op_return script key net =
          some ⟨"taproot_commit", 0, .taprootCommit "CNTRPRTY"⟩) ∧
      (script.drop (opReturnDataStart script) ≠ PREFIX_BYTES →
        (rc4Decrypt key (script.drop (opReturnDataStart script))).take 8 ≠ PREFIX_BYTES →
        parse_op_return script key net = none) ∧
      (script.drop (opReturnDataStart script) ≠ PREFIX_BYTES →
        rc4Decrypt key (script.drop (opReturnDataStart script)) = PREFIX_BYTES →
        parse_op_return script key net = none)) := by
  constructor
  · intro h
    unfold parse_op_return
    rcases h with h | h
    · rw [if_pos (Or.inl (by simp [h]))]
    · rw [if_pos (Or.inr h)]
  · intro hop hne
    have hlen : ¬ (script.length = 0 ∨ script.getD 0 0 ≠ 0x6a) := by
      simp only [not_or, not_not]
      exact ⟨by simpa [List.length_eq_zero] using hne, hop⟩
    refine ⟨?_, ?_, ?_⟩
    · intro hmagic
      unfold parse_op_return
      rw [if_neg hlen, if_pos hmagic]
    · intro hnm hdec
      unfold parse_op_return
      rw [if_neg hlen, if_neg hnm, if_pos hdec]
    · intro hnm hdec
      unfold parse_op_return
      rw [if_neg hlen, if_neg hnm, if_neg (by rw [hdec]; decide), hdec]
      rfl

/-- C10: id 3 is in the name registry as `mpma_send` but absent from the
decoder dispatch table, so a successfully extracted and framed id-3
message decodes with name `"mpma_send"` and the Unknown params shape
(payload hex, no error field). -/
theorem C10_mpma_send_unknown_params :
    messageTypeName 3 = "mpma_send" ∧
    (∀ payload net, decodePayload 3 payload net = .unknown (hexOfBytes payload) none) ∧
    (∀ script key net payload, script.getD 0 0 = 0x6a → script ≠ [] →
      script.drop (opReturnDataStart script) ≠ PREFIX_BYTES →
      (rc4Decrypt key (script.drop (opReturnDataStart script))).take 8 = PREFIX_BYTES →
      readMessageTypeId ((rc4Decrypt key (script.drop (opReturnDataStart script))).drop 8) =
        some (3, payload) →
      parse_op_return script key net =
        some ⟨"mpma_send", 3, .unknown (hexOfBytes payload) none⟩) := by
  refine ⟨rfl, ?_, ?_⟩
  · intro payload net
    rfl
  · intro script key net payload hop hne hnm hdec hread
    have hlen : ¬ (script.length = 0 ∨ script.getD 0 0 ≠ 0x6a) := by
      simp only [not_or, not_not]
      exact ⟨by simpa [List.length_eq_zero] using hne, hop⟩
    have hmsgne : ((rc4Decrypt key (script.drop (opReturnDataStart script))).drop 8).length ≠ 0 := by
      intro h0
      rw [List.length_eq_zero] at h0
      rw [h0] at hread
      exact absurd hread (by simp [readMessageTypeId])
    unfold parse_op_return
    rw [if_neg hlen, if_neg hnm, if_neg (by rw [hdec]; simp), if_neg hmsgne, hread]
    simp [messageTypeName, MESSAGE_TYPES, decodePayload, runDecoder]

/-- Witness for C6: a non-OP_RETURN script, the bare-magic taproot-commit
script, and a script whose candidate decrypts (under key `[0x01]`) to a
single byte that cannot carry the magic. -/
theorem C6_parse_op_return_nomatch_witness :
    parse_op_return [] [] mainnet = none ∧
      parse_op_return ([0x6a, 8] ++ PREFIX_BYTES) [1] mainnet =
        some ⟨"taproot_commit", 0, .taprootCommit "CNTRPRTY"⟩ ∧
      parse_op_return [0x6a, 1, 0] [1] mainnet = none :=
  ⟨(C6_parse_op_return_nomatch [] [] mainnet).1 (Or.inl rfl),
    ((C6_parse_op_return_nomatch ([0x6a, 8] ++ PREFIX_BYTES) [1] mainnet).2
      (by decide) (by decide)).1 (by decide),
    ((C6_parse_op_return_nomatch [0x6a, 1, 0] [1] mainnet).2
      (by decide) (by decide)).2.1 (by decide) (by decide)⟩

/-- Witness for C10 at a concrete script: the candidate
`[69, 70, 90, 92, 72, 114, 125, 112, 58, 152]` decrypts under key `[0x01]`
to `"CNTRPRTY"` followed by id byte 3 and payload `[0xAB]`. -/
theorem C10_mpma_send_unknown_params_witness :
    parse_op_return [0x6a, 10, 69, 70, 90, 92, 72, 114, 125, 112, 58, 152] [1] mainnet =
      some ⟨"mpma_send", 3, .unknown (hexOfBytes [0xAB]) none⟩ :=
  C10_mpma_send_unknown_params.2.2 [0x6a, 10, 69, 70, 90, 92, 72, 114, 125, 112, 58, 152]
    [1] mainnet [0xAB] (by decide) (by decide) (by decide) (by decide) (by decide)

/-! ### C7: the ord/xcp re-framing of the message-type id -/

/-- A concrete ord/xcp envelope script: markers, MIME type "text/plain",
and one short push holding the CBOR array `[2, 7]`. -/
def sC7 : List Nat :=
  [0x00, 0x63, 111, 114, 100, 0x07, 120, 99, 112, 0x01, 10,
    116, 101, 120, 116, 47, 112, 108, 97, 105, 110, 0x05, 3, 0x82, 2, 7, 0x68]

/-- The same envelope with CBOR array `[300]` (an id above 255). -/
def sC7long : List Nat :=
  [0x00, 0x63, 111, 114, 100, 0x07, 120, 99, 112, 0x01, 10,
    116, 101, 120, 116, 47, 112, 108, 97, 105, 110, 0x05, 4, 0x81, 0x19, 1, 44, 0x68]

/-- Counterexample to C7 as stated: the metadata of `sC7` decodes to the
CBOR array `[2, 7]`, whose first element 2 lies in (0, 256); the claim
demands the 5-byte long form `0x00 00 00 00 02` prefix, but the source
(`reveal-parser.ts` line 171) emits the single short-form byte `0x02` for
every id in (0, 256): the re-framed buffer starts with byte 2, not with
the 0x00 long-form marker. -/
theorem C7_reframe_counterexample :
    extractFromEnvelope sC7 =
      some (2 :: cborEncode (.array [.int 7, .text "text/plain"])) ∧
      (2 : Nat) ≠ 0x00 := by
  constructor
  · rfl
  · decide

/-- C7 (amended): during ord/xcp re-framing, a message-type id in
(0, 256) parsed out of CBOR is re-prefixed in the 1-byte short form; only
ids outside that range (0, or 256 up to 2^32 − 1) use the 5-byte
long form. -/
theorem C7_reframe_amended (script : List Nat) (startOffset : Nat) (id : Int)
    (restItems : List CborValue)
    (hdec : cborDecode (ordXcpMeta script startOffset).2 = .ok (.array (.int id :: restItems))) :
    (0 < id → id < 256 → extractOrdXcpEnvelope script startOffset =
      some (id.toNat :: cborEncode (.array (restItems ++
        [.text (bufToUtf8 (ordXcpMeta script startOffset).1)])))) ∧
    ((id = 0 ∨ 256 ≤ id) → id ≤ 4294967295 → extractOrdXcpEnvelope script startOffset =
      some ([0, id.toNat / 16777216 % 256, id.toNat / 65536 % 256, id.toNat / 256 % 256,
          id.toNat % 256] ++
        cborEncode (.array (restItems ++
          [.text (bufToUtf8 (ordXcpMeta script startOffset).1)])))) := by
  constructor
  · intro h1 h2
    simp only [extractOrdXcpEnvelope, hdec]
    simp [reframeId, h1, h2]
  · intro hor hle
    have hre : reframeId id = some [0, id.toNat / 16777216 % 256, id.toNat / 65536 % 256,
        id.toNat / 256 % 256, id.toNat % 256] := by
      unfold reframeId
      rw [if_neg (by omega), if_pos (by omega)]
    simp only [extractOrdXcpEnvelope, hdec]
    simp [hre]

/-- Witness for the amended C7 at the two concrete envelopes: id 2 gets
the short form, id 300 the long form. -/
theorem C7_reframe_amended_witness :
    extractOrdXcpEnvelope sC7 9 =
      some ((2 : Int).toNat :: cborEncode (.array ([.int 7] ++
        [.text (bufToUtf8 (ordXcpMeta sC7 9).1)]))) ∧
      extractOrdXcpEnvelope sC7long 9 =
        some ([0, (300 : Int).toNat / 16777216 % 256, (300 : Int).toNat / 65536 % 256,
            (300 : Int).toNat / 256 % 256, (300 : Int).toNat % 256] ++
          cborEncode (.array (([] : List CborValue) ++
            [.text (bufToUtf8 (ordXcpMeta sC7long 9).1)]))) :=
  ⟨(C7_reframe_amended sC7 9 2 [.int 7] rfl).1 (by norm_num) (by norm_num),
    (C7_reframe_amended sC7long 9 300 [] rfl).2 (Or.inr (by norm_num)) (by norm_num)⟩

/-! ### C8: push-opcode-width agnosticism of envelope extraction

An envelope embedding of a chunk list is described by pairing each chunk
with the push opcode width used to encode it. -/

inductive PushWidth where
  | short
  | pd1
  | pd2
  | pd4
deriving DecidableEq

/-- Encode one pushed chunk with the chosen opcode width. -/
def encodePush : PushWidth → List Nat → List Nat
  | .short, c => c.length :: c
  | .pd1, c => 0x4c :: c.length :: c
  | .pd2, c => 0x4d :: c.length % 256 :: c.length / 256 :: c
  | .pd4, c => 0x4e :: c.length % 256 :: c.length / 256 % 256 :: c.length / 65536 % 256 ::
      c.length / 16777216 :: c

/-- The chunk lengths each width can carry in a generic envelope. -/
def validWidthG : PushWidth → Nat → Prop
  | .short, n => n ≤ 75
  | .pd1, n => n ≤ 255
  | .pd2, n => n ≤ 65535
  | .pd4, n => n ≤ 4294967295

instance (w : PushWidth) (n : Nat) : Decidable (validWidthG w n) := by
  cases w <;> simp only [validWidthG] <;> infer_instance

/-- The widths the ord/xcp metadata loop recognizes: only short pushes
and PUSHDATA1, and only for non-empty chunks (a zero-length short push is
the bare `OP_0` byte, which terminates that loop). -/
def validWidthOrd : PushWidth → Nat → Prop
  | .short, n => 1 ≤ n ∧ n ≤ 75
  | .pd1, n => 1 ≤ n ∧ n ≤ 255
  | _, _ => False

instance (w : PushWidth) (n : Nat) : Decidable (validWidthOrd w n) := by
  cases w <;> simp only [validWidthOrd] <;> infer_instance

/-- Concatenated encoding of all chunks. -/
def encodeAll (ps : List (List Nat × PushWidth)) : List Nat :=
  ps.flatMap (fun p => encodePush p.2 p.1)

/-- A generic envelope: `OP_FALSE OP_IF`, the encoded pushes, `OP_ENDIF`. -/
def mkEnvelope (ps : List (List Nat × PushWidth)) : List Nat :=
  0x00 :: 0x63 :: (encodeAll ps ++ [0x68])

/-- An ord/xcp envelope in the layout the extractor recognizes:
`OP_FALSE OP_IF`, `"ord"`, 0x07, `"xcp"`, 0x01, the length-prefixed MIME
type, 0x05, the encoded metadata pushes, `OP_ENDIF`. -/
def mkOrdXcpEnvelope (mime : List Nat) (ps : List (List Nat × PushWidth)) : List Nat :=
  0x00 :: 0x63 :: 111 :: 114 :: 100 :: 0x07 :: 120 :: 99 :: 112 :: 0x01 :: mime.length ::
    (mime ++ (0x05 :: (encodeAll ps ++ [0x68])))

/-- The generic collector is insensitive to the fuel value, as long as the
fuel covers the list length. -/
lemma collectGeneric_congr : ∀ f₁ : Nat, ∀ l : List Nat, ∀ f₂ : Nat,
    l.length ≤ f₁ → l.length ≤ f₂ → collectGeneric f₁ l = collectGeneric f₂ l := by
  intro f₁
  induction f₁ with
  | zero =>
    intro l f₂ h1 _
    have hl : l = [] := List.length_eq_zero.mp (by omega)
    subst hl
    cases f₂ <;> rfl
  | succ f₁ ih =>
    intro l f₂ h1 h2
    match l with
    | [] => cases f₂ <;> rfl
    | b :: rest =>
      match f₂ with
      | 0 => simp at h2
      | f₂ + 1 =>
        have hr : rest.length ≤ f₁ := by simp at h1; omega
        have hr2 : rest.length ≤ f₂ := by simp at h2; omega
        simp only [collectGeneric]
        split_ifs
        · rfl
        · rw [ih (rest.drop b) f₂ (by simp; omega) (by simp; omega)]
        · rw [ih ((rest.drop 1).drop (rest.getD 0 0)) f₂ (by simp; omega) (by simp; omega)]
        · rfl
        · rw [ih ((rest.drop 2).drop (rest.getD 0 0 + 256 * rest.getD 1 0)) f₂
            (by simp; omega) (by simp; omega)]
        · rfl
        · rw [ih ((rest.drop 4).drop (rest.getD 0 0 + 256 * rest.getD 1 0 +
              65536 * rest.getD 2 0 + 16777216 * rest.getD 3 0)) f₂
            (by simp; omega) (by simp; omega)]
        · exact ih rest f₂ hr hr2

/-- The canonical-fuel generic collector. -/
def collectG (l : List Nat) : Option (List Nat) := collectGeneric l.length l

lemma collectG_encodePush (w : PushWidth) (c rest : List Nat) (hw : validWidthG w c.length) :
    collectG (encodePush w c ++ rest) = (collectG rest).map (c ++ ·) := by
  cases w with
  | short =>
    have h75 : c.length ≤ 75 := hw
    by_cases hc : c.length = 0
    · have hcnil : c = [] := List.length_eq_zero.mp hc
      subst hcnil
      show collectGeneric (0 :: rest).length (0 :: rest) = (collectG rest).map _
      simp only [List.length_cons, collectGeneric]
      norm_num
      rfl
    · show collectGeneric (c.length :: (c ++ rest)).length (c.length :: (c ++ rest)) =
        (collectG rest).map _
      simp only [List.length_cons, collectGeneric]
      rw [if_neg (by omega), if_pos ⟨by omega, h75⟩, List.take_left, List.drop_left,
        collectGeneric_congr (c ++ rest).length rest rest.length (by simp) le_rfl]
      rfl
  | pd1 =>
    have h255 : c.length ≤ 255 := hw
    show collectGeneric (0x4c :: (c.length :: (c ++ rest))).length
        (0x4c :: (c.length :: (c ++ rest))) = (collectG rest).map _
    simp only [List.length_cons, collectGeneric]
    norm_num
    rw [collectGeneric_congr (c.length + rest.length + 1) rest rest.length (by omega) le_rfl]
    rfl
  | pd2 =>
    have h2 : c.length ≤ 65535 := hw
    show collectGeneric (0x4d :: (c.length % 256 :: (c.length / 256 :: (c ++ rest)))).length
        (0x4d :: (c.length % 256 :: (c.length / 256 :: (c ++ rest)))) = (collectG rest).map _
    simp only [List.length_cons, collectGeneric]
    norm_num
    rw [if_neg (by omega)]
    have hval : c.length % 256 + 256 * (c.length / 256) = c.length := Nat.mod_add_div _ _
    rw [hval, List.take_left, List.drop_left,
      collectGeneric_congr (c.length + rest.length + 1 + 1) rest rest.length (by omega) le_rfl]
    rfl
  | pd4 =>
    have h4 : c.length ≤ 4294967295 := hw
    show collectGeneric (0x4e :: (c.length % 256 :: (c.length / 256 % 256 ::
        (c.length / 65536 % 256 :: (c.length / 16777216 :: (c ++ rest)))))).length
        (0x4e :: (c.length % 256 :: (c.length / 256 % 256 ::
        (c.length / 65536 % 256 :: (c.length / 16777216 :: (c ++ rest)))))) =
        (collectG rest).map _
    simp only [List.length_cons, collectGeneric]
    norm_num
    rw [if_neg (by omega)]
    have hval : c.length % 256 + 256 * (c.length / 256 % 256) + 65536 * (c.length / 65536 % 256) +
        16777216 * (c.length / 16777216) = c.length := by omega
    rw [hval, List.take_left, List.drop_left,
      collectGeneric_congr (c.length + rest.length + 1 + 1 + 1 + 1) rest rest.length
        (by omega) le_rfl]
    rfl

lemma collectG_encodeAll (ps : List (List Nat × PushWidth))
    (hv : ∀ p ∈ ps, validWidthG p.2 p.1.length) :
    collectG (encodeAll ps ++ [0x68]) = some ((ps.map Prod.fst).flatten) := by
  induction ps with
  | nil => rfl
  | cons p ps ih =>
    rw [show encodeAll (p :: ps) ++ [0x68] = encodePush p.2 p.1 ++ (encodeAll ps ++ [0x68]) by
        simp [encodeAll]]
    rw [collectG_encodePush _ _ _ (hv p (List.mem_cons_self _ _)),
      ih (fun q hq => hv q (List.mem_cons_of_mem _ hq))]
    simp

lemma encodePush_length_pos (w : PushWidth) (c : List Nat) : 1 ≤ (encodePush w c).length := by
  cases w <;> simp [encodePush]

lemma encodePush_head_le (w : PushWidth) (c : List Nat) (hw : validWidthG w c.length) :
    (encodePush w c).getD 0 0 ≤ 78 := by
  cases w with
  | short =>
    have h75 : c.length ≤ 75 := hw
    simp [encodePush]
    omega
  | pd1 => simp [encodePush]
  | pd2 => simp [encodePush]
  | pd4 => simp [encodePush]

/-- On a generic envelope (non-empty chunk list, each width valid for its
chunk) the extractor returns the concatenation of the chunks. -/
lemma extractFromEnvelope_mkEnvelope (ps : List (List Nat × PushWidth)) (hne : ps ≠ [])
    (hv : ∀ p ∈ ps, validWidthG p.2 p.1.length) :
    extractFromEnvelope (mkEnvelope ps) = some ((ps.map Prod.fst).flatten) := by
  obtain ⟨p, ps', rfl⟩ : ∃ q qs, ps = q :: qs := by
    cases ps with
    | nil => exact absurd rfl hne
    | cons q qs => exact ⟨q, qs, rfl⟩
  have hbody : encodeAll (p :: ps') = encodePush p.2 p.1 ++ encodeAll ps' := by
    simp [encodeAll]
  have hhead : (encodeAll (p :: ps')).getD 0 0 ≤ 78 := by
    rw [hbody]
    have hp1 : 1 ≤ (encodePush p.2 p.1).length := encodePush_length_pos _ _
    match he : encodePush p.2 p.1, hp1 with
    | b :: bs, _ =>
      have := encodePush_head_le p.2 p.1 (hv p (List.mem_cons_self _ _))
      rw [he] at this
      simpa using this
  have hlen : 1 ≤ (encodeAll (p :: ps')).length := by
    rw [hbody]
    have := encodePush_length_pos p.2 p.1
    simp
    omega
  have hord : ordXcpOffset (mkEnvelope (p :: ps')) = none := by
    unfold ordXcpOffset
    rw [if_neg ?_]
    intro hc
    have htake := hc.2
    unfold mkEnvelope at htake
    rw [show List.drop 2 (0x00 :: 0x63 :: (encodeAll (p :: ps') ++ [0x68])) =
      encodeAll (p :: ps') ++ [0x68] from rfl] at htake
    match he : encodeAll (p :: ps'), hlen with
    | b :: bs, _ =>
      rw [he] at htake hhead
      simp only [List.cons_append, List.take_succ_cons] at htake
      have hb : b ≤ 78 := by simpa using hhead
      have : b = 111 := by
        have := congrArg (fun l => l.getD 0 0) htake
        simpa using this
      omega
  unfold extractFromEnvelope
  rw [if_neg ?_, hord]
  · unfold extractGenericEnvelope mkEnvelope
    rw [show List.drop 2 (0x00 :: 0x63 :: (encodeAll (p :: ps') ++ [0x68])) =
      encodeAll (p :: ps') ++ [0x68] from rfl]
    exact collectG_encodeAll _ hv
  · simp only [not_or, not_not]
    refine ⟨?_, rfl, rfl⟩
    unfold mkEnvelope
    simp
    omega

lemma collectOrd_congr : ∀ f₁ : Nat, ∀ l : List Nat, ∀ f₂ : Nat,
    l.length ≤ f₁ → l.length ≤ f₂ → collectOrd f₁ l = collectOrd f₂ l := by
  intro f₁
  induction f₁ with
  | zero =>
    intro l f₂ h1 _
    have hl : l = [] := List.length_eq_zero.mp (by omega)
    subst hl
    cases f₂ <;> rfl
  | succ f₁ ih =>
    intro l f₂ h1 h2
    match l with
    | [] => cases f₂ <;> rfl
    | b :: rest =>
      match f₂ with
      | 0 => simp at h2
      | f₂ + 1 =>
        have hr : rest.length ≤ f₁ := by simp at h1; omega
        have hr2 : rest.length ≤ f₂ := by simp at h2; omega
        simp only [collectOrd]
        split_ifs
        · rfl
        · rfl
        · rw [ih (rest.drop b) f₂ (by simp; omega) (by simp; omega)]
        · rw [ih ((rest.drop 1).drop (rest.getD 0 0)) f₂ (by simp; omega) (by simp; omega)]
        · exact ih rest f₂ hr hr2

/-- The canonical-fuel ord/xcp metadata collector. -/
def collectOrdG (l : List Nat) : List Nat := collectOrd l.length l

lemma collectOrdG_encodePush (w : PushWidth) (c rest : List Nat)
    (hw : validWidthOrd w c.length) :
    collectOrdG (encodePush w c ++ rest) = c ++ collectOrdG rest := by
  cases w with
  | short =>
    obtain ⟨h1, h75⟩ : 1 ≤ c.length ∧ c.length ≤ 75 := hw
    show collectOrd (c.length :: (c ++ rest)).length (c.length :: (c ++ rest)) =
      c ++ collectOrdG rest
    simp only [List.length_cons, collectOrd]
    rw [if_neg (by omega), if_neg (by omega), if_pos h75, List.take_left, List.drop_left,
      collectOrd_congr (c ++ rest).length rest rest.length (by simp) le_rfl]
    rfl
  | pd1 =>
    obtain ⟨h1, h255⟩ : 1 ≤ c.length ∧ c.length ≤ 255 := hw
    show collectOrd (0x4c :: (c.length :: (c ++ rest))).length
        (0x4c :: (c.length :: (c ++ rest))) = c ++ collectOrdG rest
    simp only [List.length_cons, collectOrd]
    norm_num
    rw [collectOrd_congr (c.length + rest.length + 1) rest rest.length (by omega) le_rfl]
    rfl
  | pd2 => exact absurd hw (by simp [validWidthOrd])
  | pd4 => exact absurd hw (by simp [validWidthOrd])

lemma collectOrdG_encodeAll (ps : List (List Nat × PushWidth))
    (hv : ∀ p ∈ ps, validWidthOrd p.2 p.1.length) :
    collectOrdG (encodeAll ps ++ [0x68]) = (ps.map Prod.fst).flatten := by
  induction ps with
  | nil => rfl
  | cons p ps ih =>
    rw [show encodeAll (p :: ps) ++ [0x68] = encodePush p.2 p.1 ++ (encodeAll ps ++ [0x68]) by
        simp [encodeAll]]
    rw [collectOrdG_encodePush _ _ _ (hv p (List.mem_cons_self _ _)),
      ih (fun q hq => hv q (List.mem_cons_of_mem _ hq))]
    simp

lemma ordXcpOffset_mkOrdXcpEnvelope (mime : List Nat) (ps : List (List Nat × PushWidth)) :
    ordXcpOffset (mkOrdXcpEnvelope mime ps) = some 9 := by
  have h5 : 5 ≤ (mkOrdXcpEnvelope mime ps).length := by
    simp only [mkOrdXcpEnvelope, List.length_cons, List.length_append]
    omega
  have h9 : 6 + 3 ≤ (mkOrdXcpEnvelope mime ps).length := by
    simp only [mkOrdXcpEnvelope, List.length_cons, List.length_append]
    omega
  unfold ordXcpOffset
  rw [if_pos ⟨h5, rfl⟩, show (mkOrdXcpEnvelope mime ps).getD 5 0 = 0x07 from rfl]
  norm_num
  intro hc
  exact absurd rfl (hc (by omega))

lemma ordXcpMeta_mkOrdXcpEnvelope (mime : List Nat) (ps : List (List Nat × PushWidth))
    (hv : ∀ p ∈ ps, validWidthOrd p.2 p.1.length) :
    ordXcpMeta (mkOrdXcpEnvelope mime ps) 9 = (mime, (ps.map Prod.fst).flatten) := by
  unfold ordXcpMeta mkOrdXcpEnvelope
  norm_num [List.take_left, List.drop_left]
  rw [collectOrd_congr ((encodeAll ps).length + 1) (encodeAll ps ++ [0x68])
    (encodeAll ps ++ [0x68]).length (by simp) le_rfl]
  exact collectOrdG_encodeAll ps hv

/-- Counterexample to C8 as stated: the same logical metadata chunk
`[0x82, 2, 7]` (the CBOR array `[2, 7]`) embedded in an ord/xcp envelope
as a short push decodes to a `ParsedMessage`, but embedded as a PUSHDATA2
push it does not (the ord/xcp metadata loop skips the 0x4D opcode byte
and misreads the length bytes, so the collected metadata is not valid
CBOR): extraction is not agnostic to the push-opcode width there. -/
theorem C8_pushwidth_counterexample :
    ([([0x82, 2, 7], PushWidth.short)].map Prod.fst =
      [([0x82, 2, 7], PushWidth.pd2)].map Prod.fst) ∧
    (parseEnvelopeScript (mkOrdXcpEnvelope [] [([0x82, 2, 7], PushWidth.short)]) mainnet).isSome =
      true ∧
    parseEnvelopeScript (mkOrdXcpEnvelope [] [([0x82, 2, 7], PushWidth.pd2)]) mainnet = none :=
  ⟨rfl, rfl, rfl⟩

/-- C8 (amended): envelope extraction is agnostic to the push-opcode
width in the generic envelope for all four widths (short, PUSHDATA1,
PUSHDATA2, PUSHDATA4 whenever the chunk length fits the width); in the
ord/xcp envelope it is agnostic only between short pushes and PUSHDATA1
(of non-empty chunks) — PUSHDATA2/PUSHDATA4 are not recognized there. -/
theorem C8_pushwidth_amended :
    (∀ (net : Network) (ps₁ ps₂ : List (List Nat × PushWidth)),
      ps₁.map Prod.fst = ps₂.map Prod.fst →
      (∀ p ∈ ps₁, validWidthG p.2 p.1.length) → (∀ p ∈ ps₂, validWidthG p.2 p.1.length) →
      parseEnvelopeScript (mkEnvelope ps₁) net = parseEnvelopeScript (mkEnvelope ps₂) net) ∧
    (∀ (net : Network) (mime : List Nat) (ps₁ ps₂ : List (List Nat × PushWidth)),
      ps₁.map Prod.fst = ps₂.map Prod.fst →
      (∀ p ∈ ps₁, validWidthOrd p.2 p.1.length) → (∀ p ∈ ps₂, validWidthOrd p.2 p.1.length) →
      parseEnvelopeScript (mkOrdXcpEnvelope mime ps₁) net =
        parseEnvelopeScript (mkOrdXcpEnvelope mime ps₂) net) := by
  constructor
  · intro net ps₁ ps₂ hmap hv₁ hv₂
    by_cases hne : ps₁ = []
    · subst hne
      have h2 : ps₂ = [] := by
        cases ps₂ with
        | nil => rfl
        | cons q qs => simp at hmap
      subst h2
      rfl
    · have hne₂ : ps₂ ≠ [] := by
        intro h
        subst h
        simp at hmap
        exact hne hmap
      unfold parseEnvelopeScript
      rw [extractFromEnvelope_mkEnvelope ps₁ hne hv₁,
        extractFromEnvelope_mkEnvelope ps₂ hne₂ hv₂, hmap]
  · intro net mime ps₁ ps₂ hmap hv₁ hv₂
    have hok : ∀ ps : List (List Nat × PushWidth),
        ¬((mkOrdXcpEnvelope mime ps).length < 4 ∨
          (mkOrdXcpEnvelope mime ps).getD 0 0 ≠ 0x00 ∨
          (mkOrdXcpEnvelope mime ps).getD 1 0 ≠ 0x63) := by
      intro ps
      simp only [not_or, not_not]
      refine ⟨?_, rfl, rfl⟩
      simp only [mkOrdXcpEnvelope, List.length_cons, List.length_append]
      omega
    have hext : extractFromEnvelope (mkOrdXcpEnvelope mime ps₁) =
        extractFromEnvelope (mkOrdXcpEnvelope mime ps₂) := by
      unfold extractFromEnvelope
      rw [if_neg (hok ps₁), if_neg (hok ps₂),
        ordXcpOffset_mkOrdXcpEnvelope, ordXcpOffset_mkOrdXcpEnvelope]
      show extractOrdXcpEnvelope (mkOrdXcpEnvelope mime ps₁) 9 =
        extractOrdXcpEnvelope (mkOrdXcpEnvelope mime ps₂) 9
      simp only [extractOrdXcpEnvelope, ordXcpMeta_mkOrdXcpEnvelope mime ps₁ hv₁,
        ordXcpMeta_mkOrdXcpEnvelope mime ps₂ hv₂, hmap]
    unfold parseEnvelopeScript
    rw [hext]

/-- Witness for the amended C8: a one-chunk generic envelope with a short
push versus a PUSHDATA4 push, and a one-chunk ord/xcp envelope with a
short push versus a PUSHDATA1 push. -/
theorem C8_pushwidth_amended_witness :
    parseEnvelopeScript (mkEnvelope [([0xAB], PushWidth.short)]) mainnet =
      parseEnvelopeScript (mkEnvelope [([0xAB], PushWidth.pd4)]) mainnet ∧
    parseEnvelopeScript (mkOrdXcpEnvelope [] [([0x82, 2, 7], PushWidth.short)]) mainnet =
      parseEnvelopeScript (mkOrdXcpEnvelope [] [([0x82, 2, 7], PushWidth.pd1)]) mainnet :=
  ⟨C8_pushwidth_amended.1 mainnet _ _ rfl (by decide) (by decide),
    C8_pushwidth_amended.2 mainnet [] _ _ rfl (by decide) (by decide)⟩
